import Mathlib

/-!
Verification development for the adaptive assessment kernel of the
E-Learning repository: a shallow embedding of the IRT 3PL core
(`src/lib/algorithms/irt.ts`), the BKT core (`src/lib/algorithms/bkt.ts`),
the seeded question bank (`prisma/seed.ts`) and the two session API routes
(`next-question` and `answer`), together with theorems settling the frozen
claims about the natural-language specification.

JavaScript numbers are embedded as real numbers (`ℝ`); `Math.exp` is
`Real.exp`, `Math.sqrt` is `Real.sqrt`, `Math.max/min` clamping is
`max`/`min`, and `Math.round` is Mathlib's `round` (both round half
towards positive infinity).  Division is real division; the one place the
source can divide by zero (the BKT Bayesian update) is discussed at the
corresponding theorem.
-/

/- ───────────────────────── IRT core (irt.ts) ───────────────────────── -/

/-- Default starting ability (`THETA_INITIAL` in irt.ts). -/
def THETA_INITIAL : ℝ := -0.780

/-- Posterior SD from self-pilot (`THETA_INITIAL_SD` in irt.ts). -/
def THETA_INITIAL_SD : ℝ := 0.543

/-- Scaling constant `D = 1.7` (irt.ts). -/
def Dconst : ℝ := 1.7

/-- Mastery threshold for the IRT mastery check (irt.ts). -/
def MASTERY_PROBABILITY : ℝ := 0.8

/-- Grid lower end (`THETA_MIN` in irt.ts). -/
def THETA_MIN : ℝ := -4

/-- Grid upper end (`THETA_MAX` in irt.ts). -/
def THETA_MAX : ℝ := 4

/-- Number of grid points (`THETA_STEPS` in irt.ts). -/
def THETA_STEPS : ℕ := 161

/-- IRT item parameters (interface `IRTParams` in irt.ts). -/
structure IRTParams where
  a : ℝ
  b : ℝ
  c : ℝ


/-- A calibrated question (interface `IRTQuestion` in irt.ts: `IRTParams`
plus identity and content fields). -/
structure IRTQuestion extends IRTParams where
  id : String
  text : String
  options : List (String × String)
  correct : String
  bloom : ℕ
  kc : String


/-- 3PL probability of a correct response (`p3PL` in irt.ts):
`c + (1 - c) / (1 + exp(-D * a * (θ - b)))`. -/
noncomputable def p3PL (theta : ℝ) (params : IRTParams) : ℝ :=
  params.c + (1 - params.c) / (1 + Real.exp (-Dconst * params.a * (theta - params.b)))

/-- Item information function (`itemInformation` in irt.ts):
`D² a² (p - c)² / ((1 - c)² p (1 - p))` with `p = p3PL(θ, params)`. -/
noncomputable def itemInformation (theta : ℝ) (params : IRTParams) : ℝ :=
  let p := p3PL theta params
  (Dconst ^ 2 * params.a ^ 2 * (p - params.c) ^ 2) /
    ((1 - params.c) ^ 2 * p * (1 - p))

/-- One entry of the response history handed to `eapEstimate`
(`{ params, isCorrect }` in irt.ts). -/
structure Response where
  params : IRTParams
  isCorrect : Bool

/-- Result record of `eapEstimate` (interface `EAPResult` in irt.ts). -/
structure EAPResult where
  theta : ℝ
  sd : ℝ
  ci95Low : ℝ
  ci95High : ℝ

/-- Grid step `(THETA_MAX - THETA_MIN) / (THETA_STEPS - 1)` (irt.ts). -/
noncomputable def gridStep : ℝ := (THETA_MAX - THETA_MIN) / (THETA_STEPS - 1 : ℕ)

/-- Grid point `THETA_MIN + i * step` (irt.ts builds the array
`grid[i] = THETA_MIN + i * step`). -/
noncomputable def gridPoint (i : ℕ) : ℝ := THETA_MIN + i * gridStep

/-- Unnormalised Gaussian prior weight at grid point `i`
(`exp(-0.5 * ((t - priorMean) / priorSd) ** 2)` in irt.ts). -/
noncomputable def priorAt (priorMean priorSd : ℝ) (i : ℕ) : ℝ :=
  Real.exp (-0.5 * ((gridPoint i - priorMean) / priorSd) ^ 2)

/-- Unnormalised posterior weight at grid point `i`: the prior weight times
the product of the per-response likelihood factors, exactly the `reduce`
with initial value `prior[i]` in irt.ts. -/
noncomputable def likelihoodAt (responses : List Response)
    (priorMean priorSd : ℝ) (i : ℕ) : ℝ :=
  responses.foldl
    (fun acc r =>
      acc * (if r.isCorrect then p3PL (gridPoint i) r.params
             else 1 - p3PL (gridPoint i) r.params))
    (priorAt priorMean priorSd i)

/-- Sum of the unnormalised posterior over the grid
(`likelihood.reduce((a, b) => a + b, 0)` in irt.ts; over `ℝ` the
left-to-right reduction equals the indexed sum). -/
noncomputable def likeSum (responses : List Response) (priorMean priorSd : ℝ) : ℝ :=
  ∑ i in Finset.range THETA_STEPS, likelihoodAt responses priorMean priorSd i

/-- Normalised posterior at grid point `i` (`likelihood.map(l => l / sum)`). -/
noncomputable def posteriorAt (responses : List Response)
    (priorMean priorSd : ℝ) (i : ℕ) : ℝ :=
  likelihoodAt responses priorMean priorSd i / likeSum responses priorMean priorSd

/-- EAP point estimate: the posterior-weighted mean of the grid
(`grid.reduce((acc, t, i) => acc + t * posterior[i], 0)` in irt.ts). -/
noncomputable def eapThetaOf (responses : List Response) (priorMean priorSd : ℝ) : ℝ :=
  ∑ i in Finset.range THETA_STEPS, gridPoint i * posteriorAt responses priorMean priorSd i

/-- Posterior standard deviation
(`sqrt(grid.reduce((acc, t, i) => acc + (t - theta) ** 2 * posterior[i], 0))`). -/
noncomputable def eapSdOf (responses : List Response) (priorMean priorSd : ℝ) : ℝ :=
  Real.sqrt (∑ i in Finset.range THETA_STEPS,
    (gridPoint i - eapThetaOf responses priorMean priorSd) ^ 2 *
      posteriorAt responses priorMean priorSd i)

/-- Accumulator of the credible-interval scan loop in `eapEstimate`:
running cumulative probability, the two interval endpoints (initialised to
the grid ends, which double as "not yet set" sentinels in the source), and
whether the loop has executed `break`. -/
structure CIAcc where
  cum : ℝ
  lo : ℝ
  hi : ℝ
  broke : Bool

/-- One iteration of the credible-interval loop in irt.ts:
`cumulative += posterior[i];
 if (cumulative >= 0.025 && ci95Low === THETA_MIN) ci95Low = grid[i];
 if (cumulative >= 0.975 && ci95High === THETA_MAX) { ci95High = grid[i]; break; }`
The `broke` flag models the `break`. -/
noncomputable def ciStep (post : ℕ → ℝ) (acc : CIAcc) (i : ℕ) : CIAcc :=
  if acc.broke then acc
  else
    let cum := acc.cum + post i
    let lo := if cum ≥ 0.025 ∧ acc.lo = THETA_MIN then gridPoint i else acc.lo
    if cum ≥ 0.975 ∧ acc.hi = THETA_MAX then ⟨cum, lo, gridPoint i, true⟩
    else ⟨cum, lo, acc.hi, false⟩

/-- The full credible-interval scan (the `for` loop of `eapEstimate`). -/
noncomputable def ciScan (post : ℕ → ℝ) : CIAcc :=
  (List.range THETA_STEPS).foldl (ciStep post) ⟨0, THETA_MIN, THETA_MAX, false⟩

/-- Grid-based Expected A Posteriori estimation (`eapEstimate` in irt.ts).
The caller supplies `priorMean` and `priorSd` (the source defaults them to
`THETA_INITIAL` and `THETA_INITIAL_SD`; call sites below pass those
explicitly). -/
noncomputable def eapEstimate (responses : List Response)
    (priorMean priorSd : ℝ) : EAPResult :=
  let acc := ciScan (posteriorAt responses priorMean priorSd)
  { theta := eapThetaOf responses priorMean priorSd
    sd := eapSdOf responses priorMean priorSd
    ci95Low := acc.lo
    ci95High := acc.hi }

/-- Selection criteria (interface `NextQuestionCriteria` in irt.ts). -/
structure NextQuestionCriteria where
  targetTheta : ℝ
  excludeIds : List String
  bloomLevel : Option ℕ := none

/-- The eligibility filter of `selectNextQuestion`:
`!excludeIds.includes(q.id) && (bloomLevel === undefined || q.bloom === bloomLevel)`. -/
def eligibleQuestions (questions : List IRTQuestion)
    (criteria : NextQuestionCriteria) : List IRTQuestion :=
  questions.filter (fun q =>
    !criteria.excludeIds.contains q.id &&
      (criteria.bloomLevel.elim true (fun lvl => q.bloom == lvl)))

/-- Adaptive selection (`selectNextQuestion` in irt.ts).  The source scores
each eligible item with `itemInformation(targetTheta, q)`, sorts the scored
array descending by `(a, b) => b.info - a.info` and returns element `0`.
`Array.prototype.sort` is stable (ES2019), so the returned element is the
*earliest* eligible item attaining the maximal information; the left fold
below, which replaces the current best only on strictly greater
information, computes exactly that element. -/
noncomputable def selectNextQuestion (questions : List IRTQuestion)
    (criteria : NextQuestionCriteria) : Option IRTQuestion :=
  match eligibleQuestions questions criteria with
  | [] => none
  | q :: rest =>
      some (rest.foldl
        (fun best cand =>
          if itemInformation criteria.targetTheta cand.toIRTParams >
              itemInformation criteria.targetTheta best.toIRTParams
          then cand else best)
        q)

/-- Modelled from the spec (§4.3), for comparison with the source's
`selectNextQuestion`: "return the argmax.  Tie-break: lowest
`|b − targetTheta|`; then lexicographically by id."  The fold replaces the
current best whenever the candidate is strictly better in this
lexicographic order. -/
noncomputable def selectNextQuestionSpec (questions : List IRTQuestion)
    (criteria : NextQuestionCriteria) : Option IRTQuestion :=
  match eligibleQuestions questions criteria with
  | [] => none
  | q :: rest =>
      some (rest.foldl
        (fun best cand =>
          let ib := itemInformation criteria.targetTheta best.toIRTParams
          let ic := itemInformation criteria.targetTheta cand.toIRTParams
          if ic > ib ∨
              (ic = ib ∧ |cand.b - criteria.targetTheta| < |best.b - criteria.targetTheta|) ∨
              (ic = ib ∧ |cand.b - criteria.targetTheta| = |best.b - criteria.targetTheta| ∧
                cand.id < best.id)
          then cand else best)
        q)

/- ───────────────────────── BKT core (bkt.ts) ───────────────────────── -/

/-- BKT mastery threshold (`MASTERY_THRESHOLD` in bkt.ts). -/
def MASTERY_THRESHOLD : ℝ := 0.95

/-- BKT parameters of one knowledge component (interface `BKTParams`). -/
structure BKTParams where
  pL0 : ℝ
  pT : ℝ
  pS : ℝ
  pG : ℝ

/-- Per-session, per-KC knowledge state (interface `KCState`). -/
structure KCState where
  kcId : String
  pLearned : ℝ
  attempts : ℕ
  correct : ℕ
  isMastered : Bool

/-- Result of one `updateBKT` call (interface `BKTUpdateResult`). -/
structure BKTUpdateResult where
  pLearned_before : ℝ
  pLearned_after : ℝ
  isMastered : Bool

/-- The clamp `Math.max(0, Math.min(1, x))` used by `updateBKT`. -/
noncomputable def clamp01 (x : ℝ) : ℝ := max 0 (min 1 x)

/-- The Bayesian-update denominator of `updateBKT`: `pCorrect` for a
correct response, `pIncorrect` for an incorrect one. -/
def bktDenominator (pLearned : ℝ) (isCorrect : Bool) (params : BKTParams) : ℝ :=
  if isCorrect then pLearned * (1 - params.pS) + (1 - pLearned) * params.pG
  else pLearned * params.pS + (1 - pLearned) * (1 - params.pG)

/-- BKT update after one response (`updateBKT` in bkt.ts).  The source
divides by `pCorrect` / `pIncorrect` unconditionally — its return type has
no error channel, and no zero-denominator check exists.  (In Lean real
division by zero yields `0`; in the JavaScript source it yields `NaN`,
which then propagates through the clamp.  Either way the function returns
a `BKTUpdateResult` and never fails.) -/
noncomputable def updateBKT (pLearned : ℝ) (isCorrect : Bool)
    (params : BKTParams) : BKTUpdateResult :=
  let pLearnedGivenResponse :=
    if isCorrect then
      (pLearned * (1 - params.pS)) / (pLearned * (1 - params.pS) + (1 - pLearned) * params.pG)
    else
      (pLearned * params.pS) / (pLearned * params.pS + (1 - pLearned) * (1 - params.pG))
  let pLearned_after := pLearnedGivenResponse + (1 - pLearnedGivenResponse) * params.pT
  let pLearned_clamped := clamp01 pLearned_after
  { pLearned_before := pLearned
    pLearned_after := pLearned_clamped
    isMastered := pLearned_clamped ≥ MASTERY_THRESHOLD }

/-- Full KC-state update (`updateKCState` in bkt.ts). -/
noncomputable def updateKCState (state : KCState) (isCorrect : Bool)
    (params : BKTParams) : KCState :=
  let result := updateBKT state.pLearned isCorrect params
  { state with
    pLearned := result.pLearned_after
    attempts := state.attempts + 1
    correct := state.correct + (if isCorrect then 1 else 0)
    isMastered := result.isMastered }

/-- The `DEFAULT_BKT_PARAMS` registry of bkt.ts, as an association list
from KC id to parameters (object-key lookup becomes `lookup`). -/
def DEFAULT_BKT_PARAMS : List (String × BKTParams) :=
  [ ("UK_national_parks", ⟨0.40, 0.20, 0.10, 0.25⟩)
  , ("UK_capitals", ⟨0.60, 0.25, 0.08, 0.25⟩)
  , ("UK_county_locations", ⟨0.30, 0.20, 0.12, 0.25⟩)
  , ("UK_rivers", ⟨0.50, 0.22, 0.10, 0.25⟩)
  , ("UK_mountains", ⟨0.45, 0.20, 0.10, 0.25⟩)
  , ("westerly_winds_rainfall", ⟨0.25, 0.18, 0.12, 0.25⟩)
  , ("maritime_continental", ⟨0.20, 0.18, 0.12, 0.25⟩)
  , ("pennines_rain_shadow", ⟨0.20, 0.15, 0.15, 0.25⟩)
  , ("north_atlantic_drift", ⟨0.22, 0.18, 0.12, 0.25⟩)
  , ("continental_effect", ⟨0.18, 0.15, 0.15, 0.25⟩)
  , ("climate_classification", ⟨0.15, 0.15, 0.18, 0.25⟩)
  , ("climate_change_application", ⟨0.12, 0.15, 0.18, 0.25⟩)
  , ("flood_risk_integration", ⟨0.10, 0.12, 0.20, 0.25⟩) ]

/-- Lookup in the BKT parameter registry (`DEFAULT_BKT_PARAMS[kc]`). -/
def bktParamsFor (kc : String) : Option BKTParams :=
  (DEFAULT_BKT_PARAMS.find? (fun e => e.fst == kc)).map Prod.snd

/- ────────────── Session API routes (next-question, answer) ────────────── -/

/-- An answer option row as the routes read it from the repository
(`prisma.option`), already ordered by its `order` column — the routes
always query `options: { orderBy: { order: 'asc' } }`, so the list in this
model is that query result. -/
structure OptionRow where
  text : String
  isCorrect : Bool
  order : ℕ

/-- A question row (`prisma.question`) with its ordered options. -/
structure QuestionRow where
  id : String
  quizId : String
  text : String
  order : ℕ
  irt_a : ℝ
  irt_b : ℝ
  irt_c : ℝ
  bloom : ℕ
  kc : String
  options : List OptionRow

/-- An interaction row (`prisma.interaction`).  `createdAt` order is the
position in the state's interaction list (append-only). -/
structure InteractionRow where
  id : String
  sessionId : String
  questionId : String
  selectedAnswer : String
  isCorrect : Bool
  responseTimeMs : ℕ
  theta_before : ℝ
  theta_after : ℝ
  pLearned_before : ℝ
  pLearned_after : ℝ

/-- A session row (`prisma.session`).  The source stores `kcStates` as a
JSON string and round-trips it through `JSON.parse`/`JSON.stringify`; the
model keeps the deserialised map directly (the parse-failure fallback in
the answer route is unreachable for states written by this model). -/
structure SessionRow where
  id : String
  quizId : String
  condition : String
  theta : ℝ
  thetaSd : ℝ
  kcStates : List (String × KCState)
  completedAt : Option ℕ

/-- The repository state the two routes read and write.  `questions` is
kept in authored (`order`) order and `interactions` in `createdAt` order,
matching the `orderBy` clauses of every query the routes issue. -/
structure DbState where
  sessions : List SessionRow
  questions : List QuestionRow
  interactions : List InteractionRow

/-- The label array `['A', 'B', 'C', 'D']` used by both routes. -/
def labelsABCD : List String := ["A", "B", "C", "D"]

/-- The options map built by the next-question route:
`q.options.forEach((opt, idx) => { if (idx < 4) optionsMap[labels[idx]] = opt.text })`. -/
def optionsMapOf (opts : List OptionRow) : List (String × String) :=
  (opts.take 4).enum.map (fun e => (labelsABCD.getD e.fst "", e.snd.text))

/-- The correct label computed by both routes:
`correctIdx = options.findIndex(o => o.isCorrect);
 correctLabel = correctIdx >= 0 ? labels[correctIdx] : 'A'`.
Faithful to the source for questions with at most four options (for a
correct option at index ≥ 4 the source reads `labels[idx]` out of bounds,
yielding `undefined`; theorems below only concern four-option questions). -/
def correctLabelOf (opts : List OptionRow) : String :=
  match opts.findIdx? (·.isCorrect) with
  | some i => labelsABCD.getD i "A"
  | none => "A"

/-- The Prisma-row-to-`IRTQuestion` mapping of the next-question route
(`(q.bloom as 1 | 2 | 3) || 1` sends a zero bloom to 1). -/
def toIRTQuestion (q : QuestionRow) : IRTQuestion :=
  { id := q.id
    text := q.text
    options := optionsMapOf q.options
    correct := correctLabelOf q.options
    bloom := if q.bloom = 0 then 1 else q.bloom
    kc := q.kc
    a := q.irt_a
    b := q.irt_b
    c := q.irt_c }

/-- `Math.round(x * 1000) / 1000`, the 3-decimal rounding both routes
apply to reported numbers. -/
noncomputable def round3 (x : ℝ) : ℝ := (round (x * 1000) : ℤ) / 1000

/-- `prisma.session.update({ where: { id }, data: ... })`. -/
def updateSessionRow (sessions : List SessionRow) (sid : String)
    (f : SessionRow → SessionRow) : List SessionRow :=
  sessions.map (fun s => if s.id = sid then f s else s)

/-- The interactions of one session, in `createdAt` order. -/
def sessionInteractions (db : DbState) (sid : String) : List InteractionRow :=
  db.interactions.filter (fun i => i.sessionId == sid)

/-- Payload of a successful next-question response (question fields plus
the `meta` envelope). -/
structure QuestionPayload where
  questionId : String
  text : String
  options : List (String × String)
  bloom : ℕ
  kc : String
  currentTheta : ℝ
  itemDifficulty : ℝ
  itemInformationMeta : ℝ
  questionsAnswered : ℕ
  questionsRemaining : ℕ
  condition : String

/-- Response of `GET /api/sessions/[id]/next-question`. -/
inductive NextQResponse where
  | error : ℕ → String → NextQResponse
  | completed : ℝ → ℕ → NextQResponse
  | question : QuestionPayload → NextQResponse

/-- The questions of one quiz, in authored order (the route's
`prisma.question.findMany({ where: { quizId }, orderBy: { order: 'asc' } })`). -/
def quizQuestions (db : DbState) (quizId : String) : List QuestionRow :=
  db.questions.filter (fun q => q.quizId == quizId)

/-- `session.interactions.map(i => i.questionId)` — the answered ids. -/
def answeredIdsOf (db : DbState) (sid : String) : List String :=
  (sessionInteractions db sid).map (·.questionId)

/-- The selection step of the next-question route: adaptive condition uses
maximum information at the current θ, any other condition serves the
remaining questions in authored order. -/
noncomputable def nextQuestionSelect (db : DbState) (session : SessionRow) :
    Option IRTQuestion :=
  if session.condition == "adaptive" then
    selectNextQuestion ((quizQuestions db session.quizId).map toIRTQuestion)
      ⟨session.theta, answeredIdsOf db session.id, none⟩
  else
    (((quizQuestions db session.quizId).map toIRTQuestion).filter
      (fun q => !(answeredIdsOf db session.id).contains q.id)).head?

/-- `GET /api/sessions/[id]/next-question` (route.ts), as a function from
repository state to response and updated state.  `now` stands for
`new Date()` at the completion write. -/
noncomputable def nextQuestionRoute (db : DbState) (sessionId : String)
    (now : ℕ) : NextQResponse × DbState :=
  match db.sessions.find? (fun s => s.id == sessionId) with
  | none => (.error 404 "Session not found", db)
  | some session =>
    if session.completedAt.isSome then
      (.error 400 "Session already completed", db)
    else if (quizQuestions db session.quizId).isEmpty then
      (.error 404 "No questions found for this quiz", db)
    else if (answeredIdsOf db session.id).length ≥ (quizQuestions db session.quizId).length then
      (.completed session.theta (answeredIdsOf db session.id).length,
        { db with
          sessions := updateSessionRow db.sessions session.id
            (fun s => { s with completedAt := some now }) })
    else
      match nextQuestionSelect db session with
      | none => (.error 404 "No eligible questions remaining", db)
      | some q =>
        (.question
          { questionId := q.id
            text := q.text
            options := q.options
            bloom := q.bloom
            kc := q.kc
            currentTheta := session.theta
            itemDifficulty := q.b
            itemInformationMeta := round3 (itemInformation session.theta q.toIRTParams)
            questionsAnswered := (answeredIdsOf db session.id).length
            questionsRemaining :=
              (quizQuestions db session.quizId).length - (answeredIdsOf db session.id).length
            condition := session.condition }, db)

/-- Body of `POST /api/sessions/[id]/answer`. -/
structure SubmitRequest where
  questionId : String
  selectedAnswer : String
  responseTimeMs : Option ℕ

/-- The success payload of the answer route (rounded θ summary, BKT
summary, new interaction id). -/
structure SubmitOk where
  correct : Bool
  correctAnswer : String
  selectedAnswer : String
  thetaBefore : ℝ
  thetaAfter : ℝ
  thetaDelta : ℝ
  thetaSd : ℝ
  ci95Low : ℝ
  ci95High : ℝ
  bktKc : String
  bktBefore : ℝ
  bktAfter : ℝ
  bktMastered : Bool
  interactionId : String

/-- Response of `POST /api/sessions/[id]/answer`. -/
inductive SubmitResponse where
  | error : ℕ → String → SubmitResponse
  | ok : SubmitOk → SubmitResponse

/-- IRT parameters of the question an interaction answered — the
`include: { question: true }` join of the answer route.  The fallback for
a dangling `questionId` is unreachable in well-formed states. -/
def paramsOfQuestion (db : DbState) (qid : String) : IRTParams :=
  match db.questions.find? (fun q => q.id == qid) with
  | some q => ⟨q.irt_a, q.irt_b, q.irt_c⟩
  | none => ⟨0, 0, 0⟩

/-- JS object property assignment `kcStates[kc] = v` on the association
list: replace in place, or append when absent. -/
def kcUpsert (m : List (String × KCState)) (k : String) (v : KCState) :
    List (String × KCState) :=
  if m.any (fun e => e.fst == k) then
    m.map (fun e => if e.fst == k then (k, v) else e)
  else m ++ [(k, v)]

/-- The committing tail of the answer route: everything after the
precondition checks have passed (correctness computation, EAP update, BKT
update, transactional write, response assembly), factored out of
`submitAnswerRoute` verbatim. -/
noncomputable def submitAnswerCommit (db : DbState) (session : SessionRow)
    (question : QuestionRow) (req : SubmitRequest) (newId : String) :
    SubmitResponse × DbState :=
  let priorInteractions := sessionInteractions db session.id
  let correctLabel := correctLabelOf question.options
  let isCorrect := req.selectedAnswer.toUpper = correctLabel
  let allResponses : List Response :=
    priorInteractions.map
      (fun i => ⟨paramsOfQuestion db i.questionId, i.isCorrect⟩) ++
    [⟨⟨question.irt_a, question.irt_b, question.irt_c⟩, isCorrect⟩]
  let eap := eapEstimate allResponses THETA_INITIAL THETA_INITIAL_SD
  let theta_before := session.theta
  let theta_after := eap.theta
  let kcStates := session.kcStates
  let kc := question.kc
  let pLearned_before :=
    ((kcStates.lookup kc).map (·.pLearned)).getD 0.25
  let bktStep : List (String × KCState) × ℝ :=
    if kc ≠ "" then
      match bktParamsFor kc with
      | some params =>
        let cur :=
          match kcStates.lookup kc with
          | some st => st
          | none => ⟨kc, params.pL0, 0, 0, false⟩
        let updated := updateKCState cur isCorrect params
        (kcUpsert kcStates kc updated, updated.pLearned)
      | none => (kcStates, pLearned_before)
    else (kcStates, pLearned_before)
  let kcStates' := bktStep.fst
  let pLearned_after := bktStep.snd
  let newInteraction : InteractionRow :=
    { id := newId
      sessionId := session.id
      questionId := req.questionId
      selectedAnswer := req.selectedAnswer.toUpper
      isCorrect := isCorrect
      responseTimeMs := req.responseTimeMs.getD 0
      theta_before := theta_before
      theta_after := theta_after
      pLearned_before := pLearned_before
      pLearned_after := pLearned_after }
  let db' := { db with
    interactions := db.interactions ++ [newInteraction]
    sessions := updateSessionRow db.sessions session.id
      (fun s => { s with
        theta := theta_after
        thetaSd := eap.sd
        kcStates := kcStates' }) }
  (.ok
    { correct := isCorrect
      correctAnswer := correctLabel
      selectedAnswer := req.selectedAnswer.toUpper
      thetaBefore := round3 theta_before
      thetaAfter := round3 theta_after
      thetaDelta := round3 (theta_after - theta_before)
      thetaSd := round3 eap.sd
      ci95Low := round3 eap.ci95Low
      ci95High := round3 eap.ci95High
      bktKc := kc
      bktBefore := round3 pLearned_before
      bktAfter := round3 pLearned_after
      bktMastered := ((kcStates'.lookup kc).map (·.isMastered)).getD false
      interactionId := newId }, db')

/-- `POST /api/sessions/[id]/answer` (the answer route), as a function
from repository state and request body to response and updated state.
`newId` stands for the interaction id Prisma generates at the `create`. -/
noncomputable def submitAnswerRoute (db : DbState) (sessionId : String)
    (req : SubmitRequest) (newId : String) : SubmitResponse × DbState :=
  if req.questionId = "" ∨ req.selectedAnswer = "" then
    (.error 400 "questionId and selectedAnswer are required", db)
  else
    match db.sessions.find? (fun s => s.id == sessionId) with
    | none => (.error 404 "Session not found", db)
    | some session =>
      if session.completedAt.isSome then
        (.error 400 "Session already completed", db)
      else
        match db.questions.find? (fun q => q.id == req.questionId) with
        | none => (.error 404 "Question not found", db)
        | some question =>
          if question.quizId ≠ session.quizId then
            (.error 400 "Question does not belong to this session", db)
          else
            if (sessionInteractions db session.id).any
                (fun i => i.questionId == req.questionId) then
              (.error 400 "Question already answered in this session", db)
            else
              submitAnswerCommit db session question req newId

/- ───────────────────────── Basic IRT facts ───────────────────────── -/

/-- The 3PL probability is strictly above `c` (for `c < 1`). -/
lemma p3PL_gt_c (theta : ℝ) (pa : IRTParams) (hc1 : pa.c < 1) :
    pa.c < p3PL theta pa := by
  have hE : 0 < Real.exp (-Dconst * pa.a * (theta - pa.b)) := Real.exp_pos _
  have h1E : 0 < 1 + Real.exp (-Dconst * pa.a * (theta - pa.b)) := by linarith
  have : 0 < (1 - pa.c) / (1 + Real.exp (-Dconst * pa.a * (theta - pa.b))) :=
    div_pos (by linarith) h1E
  unfold p3PL
  linarith

/-- The 3PL probability is strictly below 1 (for `c < 1`). -/
lemma p3PL_lt_one (theta : ℝ) (pa : IRTParams) (hc1 : pa.c < 1) :
    p3PL theta pa < 1 := by
  have hE : 0 < Real.exp (-Dconst * pa.a * (theta - pa.b)) := Real.exp_pos _
  have h1E : 1 < 1 + Real.exp (-Dconst * pa.a * (theta - pa.b)) := by linarith
  have hlt : (1 - pa.c) / (1 + Real.exp (-Dconst * pa.a * (theta - pa.b))) < 1 - pa.c := by
    have := div_lt_self (a := 1 - pa.c) (by linarith) h1E
    exact this
  unfold p3PL
  linarith

/-- The 3PL probability is strictly positive (for `0 ≤ c < 1`). -/
lemma p3PL_pos (theta : ℝ) (pa : IRTParams) (hc0 : 0 ≤ pa.c) (hc1 : pa.c < 1) :
    0 < p3PL theta pa :=
  lt_of_le_of_lt hc0 (p3PL_gt_c theta pa hc1)

/-- `exp (-y) ≤ 1 / (1 + y)` for `y ≥ 0` (reciprocal of `1 + y ≤ exp y`). -/
lemma exp_neg_le_inv_one_add (y : ℝ) (hy : 0 ≤ y) :
    Real.exp (-y) ≤ 1 / (1 + y) := by
  have h1 : 1 + y ≤ Real.exp y := by
    have := Real.add_one_le_exp y
    linarith
  have h2 : 0 < 1 + y := by linarith
  have h3 : Real.exp (-y) = 1 / Real.exp y := by
    rw [Real.exp_neg]
    exact inv_eq_one_div _
  rw [h3]
  exact one_div_le_one_div_of_le h2 h1

/-- Upper bound on `p3PL` from a lower bound on the exponential. -/
lemma p3PL_le_of_exp_ge (theta : ℝ) (pa : IRTParams) (El : ℝ)
    (hc1 : pa.c ≤ 1) (hEl : 0 ≤ El)
    (hE : El ≤ Real.exp (-Dconst * pa.a * (theta - pa.b))) :
    p3PL theta pa ≤ pa.c + (1 - pa.c) / (1 + El) := by
  have h1 : 0 < 1 + El := by linarith
  have h2 : 1 + El ≤ 1 + Real.exp (-Dconst * pa.a * (theta - pa.b)) := by linarith
  have h3 : (1 - pa.c) / (1 + Real.exp (-Dconst * pa.a * (theta - pa.b))) ≤
      (1 - pa.c) / (1 + El) :=
    div_le_div_of_nonneg_left (by linarith) h1 h2
  unfold p3PL
  linarith

/-- Lower bound on `p3PL` from an upper bound on the exponential. -/
lemma p3PL_ge_of_exp_le (theta : ℝ) (pa : IRTParams) (Eu : ℝ)
    (hc1 : pa.c ≤ 1)
    (hE : Real.exp (-Dconst * pa.a * (theta - pa.b)) ≤ Eu) :
    pa.c + (1 - pa.c) / (1 + Eu) ≤ p3PL theta pa := by
  have hE0 : 0 < Real.exp (-Dconst * pa.a * (theta - pa.b)) := Real.exp_pos _
  have h1 : 0 < 1 + Real.exp (-Dconst * pa.a * (theta - pa.b)) := by linarith
  have h2 : 1 + Real.exp (-Dconst * pa.a * (theta - pa.b)) ≤ 1 + Eu := by linarith
  have h3 : (1 - pa.c) / (1 + Eu) ≤
      (1 - pa.c) / (1 + Real.exp (-Dconst * pa.a * (theta - pa.b))) :=
    div_le_div_of_nonneg_left (by linarith) h1 h2
  unfold p3PL
  linarith

/-- Upper bound on the item information from an upper bound `pu` on `p`:
the numerator grows to `(pu - c)²` and the denominator shrinks to
`(1-c)² · c · (1 - pu)` (using `p ≥ c`). -/
lemma itemInformation_le (theta : ℝ) (pa : IRTParams) (pu : ℝ)
    (hc0 : 0 < pa.c) (hc1 : pa.c < 1)
    (hpu : p3PL theta pa ≤ pu) (hpu1 : pu < 1) :
    itemInformation theta pa ≤
      (Dconst ^ 2 * pa.a ^ 2 * (pu - pa.c) ^ 2) / ((1 - pa.c) ^ 2 * pa.c * (1 - pu)) := by
  have hpc : pa.c < p3PL theta pa := p3PL_gt_c theta pa hc1
  have hp1 : p3PL theta pa < 1 := p3PL_lt_one theta pa hc1
  set p := p3PL theta pa with hp
  have hnum : (p - pa.c) ^ 2 ≤ (pu - pa.c) ^ 2 := by nlinarith
  have hsq : 0 < (1 - pa.c) ^ 2 := pow_pos (by linarith) 2
  have hden_pos : 0 < (1 - pa.c) ^ 2 * pa.c * (1 - pu) :=
    mul_pos (mul_pos hsq hc0) (by linarith)
  have hden_le : (1 - pa.c) ^ 2 * pa.c * (1 - pu) ≤ (1 - pa.c) ^ 2 * p * (1 - p) := by
    have key : pa.c * (1 - pu) ≤ p * (1 - p) := by
      have k1 : pa.c * (1 - pu) ≤ p * (1 - pu) :=
        mul_le_mul_of_nonneg_right hpc.le (by linarith)
      have k2 : p * (1 - pu) ≤ p * (1 - p) :=
        mul_le_mul_of_nonneg_left (by linarith) (by linarith)
      linarith
    have h3 : (1 - pa.c) ^ 2 * (pa.c * (1 - pu)) ≤ (1 - pa.c) ^ 2 * (p * (1 - p)) :=
      mul_le_mul_of_nonneg_left key hsq.le
    nlinarith [h3]
  have hnum0 : 0 ≤ Dconst ^ 2 * pa.a ^ 2 * (pu - pa.c) ^ 2 := by positivity
  have hDnum : Dconst ^ 2 * pa.a ^ 2 * (p - pa.c) ^ 2 ≤
      Dconst ^ 2 * pa.a ^ 2 * (pu - pa.c) ^ 2 := by
    have hD : 0 ≤ Dconst ^ 2 * pa.a ^ 2 := by positivity
    nlinarith
  unfold itemInformation
  exact div_le_div hnum0 hDnum hden_pos hden_le

/-- Lower bound on the item information from a lower bound `pl ≥ c` on `p`:
the numerator shrinks to `(pl - c)²` and the denominator grows to
`(1-c)² / 4` (using `p(1-p) ≤ 1/4`). -/
lemma itemInformation_ge (theta : ℝ) (pa : IRTParams) (pl : ℝ)
    (hc0 : 0 ≤ pa.c) (hc1 : pa.c < 1)
    (hpl : pl ≤ p3PL theta pa) (hplc : pa.c ≤ pl) :
    (Dconst ^ 2 * pa.a ^ 2 * (pl - pa.c) ^ 2) / ((1 - pa.c) ^ 2 * (1 / 4)) ≤
      itemInformation theta pa := by
  have hpc : pa.c < p3PL theta pa := p3PL_gt_c theta pa hc1
  have hp0 : 0 < p3PL theta pa := p3PL_pos theta pa hc0 hc1
  have hp1 : p3PL theta pa < 1 := p3PL_lt_one theta pa hc1
  set p := p3PL theta pa with hp
  have hnum : (pl - pa.c) ^ 2 ≤ (p - pa.c) ^ 2 := by nlinarith
  have hsq : 0 < (1 - pa.c) ^ 2 := pow_pos (by linarith) 2
  have hden_pos : 0 < (1 - pa.c) ^ 2 * p * (1 - p) :=
    mul_pos (mul_pos hsq hp0) (by linarith)
  have hden_le : (1 - pa.c) ^ 2 * p * (1 - p) ≤ (1 - pa.c) ^ 2 * (1 / 4) := by
    have key : p * (1 - p) ≤ 1 / 4 := by nlinarith [sq_nonneg (p - 1 / 2)]
    have h3 : (1 - pa.c) ^ 2 * (p * (1 - p)) ≤ (1 - pa.c) ^ 2 * (1 / 4) :=
      mul_le_mul_of_nonneg_left key hsq.le
    nlinarith [h3]
  have hnum0 : 0 ≤ Dconst ^ 2 * pa.a ^ 2 * (pl - pa.c) ^ 2 := by positivity
  have hDnum : Dconst ^ 2 * pa.a ^ 2 * (pl - pa.c) ^ 2 ≤
      Dconst ^ 2 * pa.a ^ 2 * (p - pa.c) ^ 2 := by
    have hD : 0 ≤ Dconst ^ 2 * pa.a ^ 2 := by positivity
    nlinarith
  unfold itemInformation
  exact div_le_div (by positivity) hDnum (by positivity) hden_le

/-- C5: for every θ and every valid parameter triple with `a > 0` and
`c ∈ [0, 1)`, `p3PL(θ, a, b, c)` lies in `[c, 1)`: it is at least `c` and
strictly less than 1. -/
theorem claim_C5_p3PL_range (theta : ℝ) (pa : IRTParams)
    (ha : 0 < pa.a) (hc0 : 0 ≤ pa.c) (hc1 : pa.c < 1) :
    pa.c ≤ p3PL theta pa ∧ p3PL theta pa < 1 :=
  ⟨le_of_lt (p3PL_gt_c theta pa hc1), p3PL_lt_one theta pa hc1⟩

/-- Witness for C5 at θ = 0, a = 1, b = 0, c = 1/4. -/
theorem claim_C5_p3PL_range_witness :
    (0 : ℝ) < 1 ∧ (0 : ℝ) ≤ 1 / 4 ∧ (1 / 4 : ℝ) < 1 ∧
      ((1 / 4 : ℝ) ≤ p3PL 0 ⟨1, 0, 1 / 4⟩ ∧ p3PL 0 ⟨1, 0, 1 / 4⟩ < 1) :=
  ⟨by norm_num, by norm_num, by norm_num,
    claim_C5_p3PL_range 0 ⟨1, 0, 1 / 4⟩ (by norm_num) (by norm_num) (by norm_num)⟩

/- ─────────────── Seeded question bank (prisma/seed.ts) ─────────────── -/

/-- Seed question q-001 (`questionsData` in seed.ts). -/
def seedQ001 : QuestionRow :=
  { id := "q-001"
    quizId := "quiz-uk-geo-adaptive"
    text := "Which county is home to the Peak District National Park?"
    order := 1
    irt_a := 0.85, irt_b := -0.80, irt_c := 0.25
    bloom := 1, kc := "UK_national_parks"
    options :=
      [ ⟨"Derbyshire", true, 1⟩, ⟨"Yorkshire", false, 2⟩
      , ⟨"Lancashire", false, 3⟩, ⟨"Staffordshire", false, 4⟩ ] }

/-- Seed question q-002. -/
def seedQ002 : QuestionRow :=
  { id := "q-002"
    quizId := "quiz-uk-geo-adaptive"
    text := "What is the capital city of Wales?"
    order := 2
    irt_a := 1.20, irt_b := -1.50, irt_c := 0.25
    bloom := 1, kc := "UK_capitals"
    options :=
      [ ⟨"Swansea", false, 1⟩, ⟨"Newport", false, 2⟩
      , ⟨"Cardiff", true, 3⟩, ⟨"Wrexham", false, 4⟩ ] }

/-- Seed question q-003. -/
def seedQ003 : QuestionRow :=
  { id := "q-003"
    quizId := "quiz-uk-geo-adaptive"
    text := "Which county is located in the far south-west tip of England?"
    order := 3
    irt_a := 0.90, irt_b := -0.60, irt_c := 0.25
    bloom := 1, kc := "UK_county_locations"
    options :=
      [ ⟨"Devon", false, 1⟩, ⟨"Dorset", false, 2⟩
      , ⟨"Somerset", false, 3⟩, ⟨"Cornwall", true, 4⟩ ] }

/-- Seed question q-004. -/
def seedQ004 : QuestionRow :=
  { id := "q-004"
    quizId := "quiz-uk-geo-adaptive"
    text := "Why does the west coast of the UK receive more rainfall than the east coast?"
    order := 4
    irt_a := 1.10, irt_b := 0.20, irt_c := 0.25
    bloom := 2, kc := "westerly_winds_rainfall"
    options :=
      [ ⟨"The east coast is warmer due to the North Sea current", false, 1⟩
      , ⟨"Prevailing westerly winds bring moist air from the Atlantic", true, 2⟩
      , ⟨"The west coast has higher elevation throughout", false, 3⟩
      , ⟨"Urban heat islands create more precipitation in western cities", false, 4⟩ ] }

/-- Seed question q-005. -/
def seedQ005 : QuestionRow :=
  { id := "q-005"
    quizId := "quiz-uk-geo-adaptive"
    text := "Which area of England lies in the rain shadow of the Pennines?"
    order := 5
    irt_a := 1.30, irt_b := 0.50, irt_c := 0.25
    bloom := 2, kc := "pennines_rain_shadow"
    options :=
      [ ⟨"The Lake District", false, 1⟩, ⟨"The Yorkshire Dales", false, 2⟩
      , ⟨"The Vale of York", true, 3⟩, ⟨"The Peak District", false, 4⟩ ] }

/-- The seeded five-question bank, in authored order. -/
def seededQuestions : List QuestionRow :=
  [seedQ001, seedQ002, seedQ003, seedQ004, seedQ005]

/-- The seeded bank as the next-question route maps it to `IRTQuestion`s. -/
def seededBank : List IRTQuestion := seededQuestions.map toIRTQuestion

/- ──────────── Item information bounds at θ = −0.780 (C1) ──────────── -/

/-- Information of q-001 at θ = −0.780 is at most 5.82. -/
lemma infoQ1_ub :
    itemInformation (-0.780) (toIRTQuestion seedQ001).toIRTParams ≤ 5.82 := by
  have hpa : (toIRTQuestion seedQ001).toIRTParams = ⟨0.85, -0.80, 0.25⟩ := rfl
  rw [hpa]
  have hE : (0.9711 : ℝ) ≤
      Real.exp (-Dconst * (IRTParams.mk 0.85 (-0.80) 0.25).a *
        ((-0.780) - (IRTParams.mk 0.85 (-0.80) 0.25).b)) := by
    have h := Real.add_one_le_exp
      (-Dconst * (IRTParams.mk 0.85 (-0.80) 0.25).a *
        ((-0.780 : ℝ) - (IRTParams.mk 0.85 (-0.80) 0.25).b))
    have e : -Dconst * (IRTParams.mk 0.85 (-0.80) 0.25).a *
        ((-0.780 : ℝ) - (IRTParams.mk 0.85 (-0.80) 0.25).b) = -0.0289 := by
      norm_num [Dconst]
    rw [e] at h ⊢
    linarith
  have hp : p3PL (-0.780) ⟨0.85, -0.80, 0.25⟩ ≤ 0.6305 := by
    have h := p3PL_le_of_exp_ge (-0.780) ⟨0.85, -0.80, 0.25⟩ 0.9711
      (by norm_num) (by norm_num) hE
    have e : (IRTParams.mk 0.85 (-0.80) 0.25).c +
        (1 - (IRTParams.mk 0.85 (-0.80) 0.25).c) / (1 + 0.9711) ≤ (0.6305 : ℝ) := by
      norm_num
    linarith
  have h := itemInformation_le (-0.780) ⟨0.85, -0.80, 0.25⟩ 0.6305
    (by norm_num) (by norm_num) hp (by norm_num)
  have e : (Dconst ^ 2 * (IRTParams.mk 0.85 (-0.80) 0.25).a ^ 2 *
      ((0.6305 : ℝ) - (IRTParams.mk 0.85 (-0.80) 0.25).c) ^ 2) /
      ((1 - (IRTParams.mk 0.85 (-0.80) 0.25).c) ^ 2 *
        (IRTParams.mk 0.85 (-0.80) 0.25).c * (1 - 0.6305)) ≤ (5.82 : ℝ) := by
    norm_num [Dconst]
  linarith

/-- Generic upper bound on `itemInformation` for a `c = 0.25` item from the
linear lower bound `1 + x ≤ exp x` on the exponential. -/
lemma info_ub_general (θ a b pu U x : ℝ)
    (harg : -Dconst * a * (θ - b) = x) (hx : 0 ≤ 1 + x)
    (hpu : 0.25 + 0.75 / (1 + (1 + x)) ≤ pu) (hpu1 : pu < 1)
    (hU : Dconst ^ 2 * a ^ 2 * (pu - 0.25) ^ 2 /
      ((1 - 0.25) ^ 2 * 0.25 * (1 - pu)) ≤ U) :
    itemInformation θ ⟨a, b, 0.25⟩ ≤ U := by
  have hE : (1 + x) ≤ Real.exp (-Dconst * a * (θ - b)) := by
    rw [harg]
    have := Real.add_one_le_exp x
    linarith
  have hp : p3PL θ ⟨a, b, 0.25⟩ ≤ pu := by
    have h := p3PL_le_of_exp_ge θ ⟨a, b, 0.25⟩ (1 + x) (by norm_num) hx hE
    have e : (IRTParams.mk a b 0.25).c + (1 - (IRTParams.mk a b 0.25).c) / (1 + (1 + x)) =
        0.25 + 0.75 / (1 + (1 + x)) := by norm_num
    rw [e] at h
    linarith
  have h := itemInformation_le θ ⟨a, b, 0.25⟩ pu (by norm_num) (by norm_num) hp hpu1
  have e : Dconst ^ 2 * (IRTParams.mk a b 0.25).a ^ 2 *
      (pu - (IRTParams.mk a b 0.25).c) ^ 2 /
      ((1 - (IRTParams.mk a b 0.25).c) ^ 2 * (IRTParams.mk a b 0.25).c * (1 - pu)) =
      Dconst ^ 2 * a ^ 2 * (pu - 0.25) ^ 2 / ((1 - 0.25) ^ 2 * 0.25 * (1 - pu)) := rfl
  rw [e] at h
  linarith

/-- Generic lower bound on `itemInformation` for a `c = 0.25` item from the
upper bound `exp (-y) ≤ 1/(1+y)` on the exponential. -/
lemma info_lb_general (θ a b pl L y : ℝ)
    (harg : -Dconst * a * (θ - b) = -y) (hy : 0 ≤ y)
    (hpl : pl ≤ 0.25 + 0.75 / (1 + 1 / (1 + y))) (hplc : 0.25 ≤ pl)
    (hL : L ≤ Dconst ^ 2 * a ^ 2 * (pl - 0.25) ^ 2 / ((1 - 0.25) ^ 2 * (1 / 4))) :
    L ≤ itemInformation θ ⟨a, b, 0.25⟩ := by
  have hEu : Real.exp (-Dconst * a * (θ - b)) ≤ 1 / (1 + y) := by
    rw [harg]
    exact exp_neg_le_inv_one_add y hy
  have hp : pl ≤ p3PL θ ⟨a, b, 0.25⟩ := by
    have h := p3PL_ge_of_exp_le θ ⟨a, b, 0.25⟩ (1 / (1 + y)) (by norm_num) hEu
    have e : (IRTParams.mk a b 0.25).c +
        (1 - (IRTParams.mk a b 0.25).c) / (1 + 1 / (1 + y)) =
        0.25 + 0.75 / (1 + 1 / (1 + y)) := by norm_num
    rw [e] at h
    linarith
  have h := itemInformation_ge θ ⟨a, b, 0.25⟩ pl (by norm_num) (by norm_num) hp hplc
  have e : Dconst ^ 2 * (IRTParams.mk a b 0.25).a ^ 2 *
      (pl - (IRTParams.mk a b 0.25).c) ^ 2 /
      ((1 - (IRTParams.mk a b 0.25).c) ^ 2 * (1 / 4)) =
      Dconst ^ 2 * a ^ 2 * (pl - 0.25) ^ 2 / ((1 - 0.25) ^ 2 * (1 / 4)) := rfl
  rw [e] at h
  linarith

/-- Information of q-002 at θ = −0.780 is at least 8.42. -/
lemma infoQ2_lb :
    (8.42 : ℝ) ≤ itemInformation (-0.780) (toIRTQuestion seedQ002).toIRTParams := by
  have hpa : (toIRTQuestion seedQ002).toIRTParams = ⟨1.20, -1.50, 0.25⟩ := rfl
  rw [hpa]
  exact info_lb_general (-0.780) 1.20 (-1.50) 0.7837 8.42 1.4688
    (by norm_num [Dconst]) (by norm_num) (by norm_num) (by norm_num) (by norm_num [Dconst])

/-- Information of q-003 at θ = −0.780 is at most 4.31. -/
lemma infoQ3_ub :
    itemInformation (-0.780) (toIRTQuestion seedQ003).toIRTParams ≤ 4.31 := by
  have hpa : (toIRTQuestion seedQ003).toIRTParams = ⟨0.90, -0.60, 0.25⟩ := rfl
  rw [hpa]
  exact info_ub_general (-0.780) 0.90 (-0.60) 0.5797 4.31 0.2754
    (by norm_num [Dconst]) (by norm_num) (by norm_num) (by norm_num) (by norm_num [Dconst])

/-- Information of q-004 at θ = −0.780 is at most 1.72. -/
lemma infoQ4_ub :
    itemInformation (-0.780) (toIRTQuestion seedQ004).toIRTParams ≤ 1.72 := by
  have hpa : (toIRTQuestion seedQ004).toIRTParams = ⟨1.10, 0.20, 0.25⟩ := rfl
  rw [hpa]
  exact info_ub_general (-0.780) 1.10 0.20 0.4457 1.72 1.8326
    (by norm_num [Dconst]) (by norm_num) (by norm_num) (by norm_num) (by norm_num [Dconst])

/-- Information of q-005 at θ = −0.780 is at most 1.42. -/
lemma infoQ5_ub :
    itemInformation (-0.780) (toIRTQuestion seedQ005).toIRTParams ≤ 1.42 := by
  have hpa : (toIRTQuestion seedQ005).toIRTParams = ⟨1.30, 0.50, 0.25⟩ := rfl
  rw [hpa]
  exact info_ub_general (-0.780) 1.30 0.50 0.4054 1.42 2.8288
    (by norm_num [Dconst]) (by norm_num) (by norm_num) (by norm_num) (by norm_num [Dconst])

/-- The comparison step of the information-descending stable sort in
`selectNextQuestion` (replace the current best only on strictly greater
information), abstracted for stepwise evaluation. -/
noncomputable def pickAt (θ : ℝ) (best cand : IRTQuestion) : IRTQuestion :=
  if itemInformation θ cand.toIRTParams > itemInformation θ best.toIRTParams
  then cand else best

/-- `selectNextQuestion` is the left fold of `pickAt` over the eligible
list (definitional repackaging used by the concrete evaluations below). -/
lemma selectNextQuestion_eq_foldl (questions : List IRTQuestion)
    (criteria : NextQuestionCriteria) :
    selectNextQuestion questions criteria =
      match eligibleQuestions questions criteria with
      | [] => none
      | q :: rest => some (rest.foldl (pickAt criteria.targetTheta) q) := rfl

/-- C1: on the seeded five-question bank with θ = −0.780 and no prior
answers, `selectNextQuestion` returns q-002, and q-002 is the item with
the strictly highest `itemInformation` at θ = −0.780. -/
theorem claim_C1_adaptive_first_pick :
    selectNextQuestion seededBank ⟨-0.780, [], none⟩ = some (toIRTQuestion seedQ002) ∧
      ∀ q ∈ seededBank, q.id ≠ "q-002" →
        itemInformation (-0.780) q.toIRTParams <
          itemInformation (-0.780) (toIRTQuestion seedQ002).toIRTParams := by
  have h1 : itemInformation (-0.780) (toIRTQuestion seedQ001).toIRTParams <
      itemInformation (-0.780) (toIRTQuestion seedQ002).toIRTParams :=
    lt_of_le_of_lt infoQ1_ub (lt_of_lt_of_le (by norm_num) infoQ2_lb)
  have h3 : itemInformation (-0.780) (toIRTQuestion seedQ003).toIRTParams <
      itemInformation (-0.780) (toIRTQuestion seedQ002).toIRTParams :=
    lt_of_le_of_lt infoQ3_ub (lt_of_lt_of_le (by norm_num) infoQ2_lb)
  have h4 : itemInformation (-0.780) (toIRTQuestion seedQ004).toIRTParams <
      itemInformation (-0.780) (toIRTQuestion seedQ002).toIRTParams :=
    lt_of_le_of_lt infoQ4_ub (lt_of_lt_of_le (by norm_num) infoQ2_lb)
  have h5 : itemInformation (-0.780) (toIRTQuestion seedQ005).toIRTParams <
      itemInformation (-0.780) (toIRTQuestion seedQ002).toIRTParams :=
    lt_of_le_of_lt infoQ5_ub (lt_of_lt_of_le (by norm_num) infoQ2_lb)
  constructor
  · have hsel : selectNextQuestion seededBank ⟨-0.780, [], none⟩ =
        some (List.foldl (pickAt (-0.780)) (toIRTQuestion seedQ001)
          [toIRTQuestion seedQ002, toIRTQuestion seedQ003,
           toIRTQuestion seedQ004, toIRTQuestion seedQ005]) := rfl
    rw [hsel]
    have e1 : pickAt (-0.780) (toIRTQuestion seedQ001) (toIRTQuestion seedQ002) =
        toIRTQuestion seedQ002 := if_pos h1
    have e2 : pickAt (-0.780) (toIRTQuestion seedQ002) (toIRTQuestion seedQ003) =
        toIRTQuestion seedQ002 := if_neg (not_lt.mpr (le_of_lt h3))
    have e3 : pickAt (-0.780) (toIRTQuestion seedQ002) (toIRTQuestion seedQ004) =
        toIRTQuestion seedQ002 := if_neg (not_lt.mpr (le_of_lt h4))
    have e4 : pickAt (-0.780) (toIRTQuestion seedQ002) (toIRTQuestion seedQ005) =
        toIRTQuestion seedQ002 := if_neg (not_lt.mpr (le_of_lt h5))
    rw [List.foldl_cons, e1, List.foldl_cons, e2, List.foldl_cons, e3,
      List.foldl_cons, e4, List.foldl_nil]
  · intro q hq hne
    have hmem : q = toIRTQuestion seedQ001 ∨ q = toIRTQuestion seedQ002 ∨
        q = toIRTQuestion seedQ003 ∨ q = toIRTQuestion seedQ004 ∨
        q = toIRTQuestion seedQ005 := by
      simpa [seededBank, seededQuestions] using hq
    rcases hmem with h | h | h | h | h
    · rw [h]; exact h1
    · subst h; exact absurd rfl hne
    · rw [h]; exact h3
    · rw [h]; exact h4
    · rw [h]; exact h5

/-- The fold of `pickAt` returns the *first* element of `best :: l`
attaining the maximal item information: everything strictly before it in
the list has strictly smaller information, and nothing beats it. -/
lemma foldl_pickAt_spec (θ : ℝ) :
    ∀ (l : List IRTQuestion) (best : IRTQuestion),
    ∃ l1 l2, best :: l = l1 ++ (l.foldl (pickAt θ) best) :: l2 ∧
      (∀ x ∈ l1, itemInformation θ x.toIRTParams <
        itemInformation θ (l.foldl (pickAt θ) best).toIRTParams) ∧
      (∀ x ∈ best :: l, itemInformation θ x.toIRTParams ≤
        itemInformation θ (l.foldl (pickAt θ) best).toIRTParams) := by
  intro l
  induction l with
  | nil =>
    intro best
    exact ⟨[], [], rfl, by simp, by simp⟩
  | cons c cs ih =>
    intro best
    rw [List.foldl_cons]
    by_cases h : itemInformation θ c.toIRTParams > itemInformation θ best.toIRTParams
    · have hp : pickAt θ best c = c := if_pos h
      rw [hp]
      obtain ⟨l1, l2, hsplit, hlt, hle⟩ := ih c
      refine ⟨best :: l1, l2, ?_, ?_, ?_⟩
      · rw [List.cons_append, ← hsplit]
      · intro x hx
        rcases List.mem_cons.mp hx with hx | hx
        · subst hx
          exact lt_of_lt_of_le h (hle c (List.mem_cons_self c cs))
        · exact hlt x hx
      · intro x hx
        rcases List.mem_cons.mp hx with hx | hx
        · subst hx
          exact le_of_lt (lt_of_lt_of_le h (hle c (List.mem_cons_self c cs)))
        · exact hle x hx
    · have hp : pickAt θ best c = best := if_neg h
      rw [hp]
      obtain ⟨l1, l2, hsplit, hlt, hle⟩ := ih best
      have hcle : itemInformation θ c.toIRTParams ≤
          itemInformation θ best.toIRTParams := not_lt.mp h
      have hbestle : itemInformation θ best.toIRTParams ≤
          itemInformation θ (cs.foldl (pickAt θ) best).toIRTParams :=
        hle best (List.mem_cons_self best cs)
      cases l1 with
      | nil =>
        simp only [List.nil_append] at hsplit
        injection hsplit with hr hl2
        refine ⟨[], c :: cs, ?_, by simp, ?_⟩
        · rw [List.nil_append, ← hr]
        · intro x hx
          rcases List.mem_cons.mp hx with hx | hx
          · subst hx
            exact hbestle
          · rcases List.mem_cons.mp hx with hx | hx
            · subst hx
              exact le_trans hcle hbestle
            · exact hle x (List.mem_cons_of_mem best hx)
      | cons b l1' =>
        rw [List.cons_append] at hsplit
        injection hsplit with hb hcs
        subst hb
        refine ⟨best :: c :: l1', l2, ?_, ?_, ?_⟩
        · rw [List.cons_append, List.cons_append, ← hcs]
        · intro x hx
          rcases List.mem_cons.mp hx with hx | hx
          · rw [hx]
            exact hlt best (List.mem_cons_self best l1')
          · rcases List.mem_cons.mp hx with hx | hx
            · rw [hx]
              exact lt_of_le_of_lt hcle (hlt best (List.mem_cons_self best l1'))
            · exact hlt x (List.mem_cons_of_mem best hx)
        · intro x hx
          rcases List.mem_cons.mp hx with hx | hx
          · subst hx
            exact hbestle
          · rcases List.mem_cons.mp hx with hx | hx
            · subst hx
              exact le_trans hcle hbestle
            · exact hle x (List.mem_cons_of_mem best hx)

/-- Characterisation of `selectNextQuestion`: when it returns a question,
that question is the first eligible item attaining the maximal item
information at `targetTheta`. -/
lemma selectNextQuestion_first_max (questions : List IRTQuestion)
    (criteria : NextQuestionCriteria) (q : IRTQuestion)
    (h : selectNextQuestion questions criteria = some q) :
    ∃ l1 l2, eligibleQuestions questions criteria = l1 ++ q :: l2 ∧
      (∀ x ∈ l1, itemInformation criteria.targetTheta x.toIRTParams <
        itemInformation criteria.targetTheta q.toIRTParams) ∧
      ∀ x ∈ eligibleQuestions questions criteria,
        itemInformation criteria.targetTheta x.toIRTParams ≤
          itemInformation criteria.targetTheta q.toIRTParams := by
  rw [selectNextQuestion_eq_foldl] at h
  cases he : eligibleQuestions questions criteria with
  | nil =>
    rw [he] at h
    exact absurd h (by simp)
  | cons hd tl =>
    rw [he] at h
    have hq : tl.foldl (pickAt criteria.targetTheta) hd = q := Option.some.inj h
    obtain ⟨l1, l2, hsplit, hlt, hle⟩ := foldl_pickAt_spec criteria.targetTheta tl hd
    rw [hq] at hsplit hlt hle
    exact ⟨l1, l2, hsplit, hlt, hle⟩

/-- C2 (amended): whenever `selectNextQuestion` returns an item, it is an
eligible item of maximal `itemInformation` at `targetTheta`; among
equally informative eligible items the one *earliest in the bank order*
is returned (everything before the returned item in the eligible list has
strictly smaller information) — the tie-breaks by `|b − targetTheta|` and
by id claimed in the specification are not implemented.  The result is
still a deterministic function of the inputs (it is a pure function of
`questions` and `criteria`). -/
theorem claim_C2_selection_first_max (questions : List IRTQuestion)
    (criteria : NextQuestionCriteria) (q : IRTQuestion)
    (h : selectNextQuestion questions criteria = some q) :
    ∃ l1 l2, eligibleQuestions questions criteria = l1 ++ q :: l2 ∧
      (∀ x ∈ l1, itemInformation criteria.targetTheta x.toIRTParams <
        itemInformation criteria.targetTheta q.toIRTParams) ∧
      ∀ x ∈ eligibleQuestions questions criteria,
        itemInformation criteria.targetTheta x.toIRTParams ≤
          itemInformation criteria.targetTheta q.toIRTParams :=
  selectNextQuestion_first_max questions criteria q h

/-- Witness for C2 (amended) on the singleton bank `[q-001]`. -/
theorem claim_C2_selection_first_max_witness :
    ∃ l1 l2,
      eligibleQuestions [toIRTQuestion seedQ001] ⟨0, [], none⟩ =
        l1 ++ toIRTQuestion seedQ001 :: l2 ∧
      (∀ x ∈ l1, itemInformation (NextQuestionCriteria.mk 0 [] none).targetTheta
          x.toIRTParams <
        itemInformation (NextQuestionCriteria.mk 0 [] none).targetTheta
          (toIRTQuestion seedQ001).toIRTParams) ∧
      ∀ x ∈ eligibleQuestions [toIRTQuestion seedQ001] ⟨0, [], none⟩,
        itemInformation (NextQuestionCriteria.mk 0 [] none).targetTheta
            x.toIRTParams ≤
          itemInformation (NextQuestionCriteria.mk 0 [] none).targetTheta
            (toIRTQuestion seedQ001).toIRTParams :=
  claim_C2_selection_first_max [toIRTQuestion seedQ001] ⟨0, [], none⟩
    (toIRTQuestion seedQ001) rfl

/-- A bank with two identically parameterised items whose ids are in
reverse lexicographic order, exposing the missing tie-break. -/
def tieQuestionZ : IRTQuestion :=
  { a := 1, b := 0, c := 0.25, id := "z-tie", text := "tie item Z"
    options := [], correct := "A", bloom := 1, kc := "" }

/-- The identically parameterised partner item with the smaller id. -/
def tieQuestionA : IRTQuestion :=
  { a := 1, b := 0, c := 0.25, id := "a-tie", text := "tie item A"
    options := [], correct := "A", bloom := 1, kc := "" }

/-- C2 counterexample: on the bank `[z-tie, a-tie]` of two items with
identical parameters (hence exactly equal information and equal
`|b − targetTheta|`), the source returns `z-tie`, the *first* item of the
bank, not the lexicographically smaller id `a-tie` demanded by the claim;
the spec-faithful selector `selectNextQuestionSpec` returns `a-tie`. -/
theorem claim_C2_counterexample :
    selectNextQuestion [tieQuestionZ, tieQuestionA] ⟨0, [], none⟩ =
        some tieQuestionZ ∧
      itemInformation 0 tieQuestionA.toIRTParams =
        itemInformation 0 tieQuestionZ.toIRTParams ∧
      |tieQuestionA.b - 0| = |tieQuestionZ.b - 0| ∧
      tieQuestionA.id < tieQuestionZ.id ∧
      tieQuestionZ ≠ tieQuestionA ∧
      selectNextQuestionSpec [tieQuestionZ, tieQuestionA] ⟨0, [], none⟩ =
        some tieQuestionA := by
  have hparams : tieQuestionA.toIRTParams = tieQuestionZ.toIRTParams := rfl
  have hinfoeq : itemInformation 0 tieQuestionA.toIRTParams =
      itemInformation 0 tieQuestionZ.toIRTParams := by rw [hparams]
  have hidlt : tieQuestionA.id < tieQuestionZ.id := by
    rw [show tieQuestionA.id = "a-tie" from rfl, show tieQuestionZ.id = "z-tie" from rfl,
      String.lt_iff_toList_lt]
    decide
  refine ⟨?_, hinfoeq, rfl, hidlt, ?_, ?_⟩
  · have hsel : selectNextQuestion [tieQuestionZ, tieQuestionA] ⟨0, [], none⟩ =
        some (pickAt 0 tieQuestionZ tieQuestionA) := rfl
    rw [hsel]
    have : pickAt 0 tieQuestionZ tieQuestionA = tieQuestionZ :=
      if_neg (not_lt.mpr (le_of_eq hinfoeq))
    rw [this]
  · intro h
    exact absurd (congrArg IRTQuestion.id h) (by decide)
  · have hsel : selectNextQuestionSpec [tieQuestionZ, tieQuestionA] ⟨0, [], none⟩ =
        some (if itemInformation 0 tieQuestionA.toIRTParams >
                itemInformation 0 tieQuestionZ.toIRTParams ∨
              (itemInformation 0 tieQuestionA.toIRTParams =
                itemInformation 0 tieQuestionZ.toIRTParams ∧
                |tieQuestionA.b - 0| < |tieQuestionZ.b - 0|) ∨
              (itemInformation 0 tieQuestionA.toIRTParams =
                itemInformation 0 tieQuestionZ.toIRTParams ∧
                |tieQuestionA.b - 0| = |tieQuestionZ.b - 0| ∧
                tieQuestionA.id < tieQuestionZ.id)
            then tieQuestionA else tieQuestionZ) := rfl
    rw [hsel, if_pos]
    exact Or.inr (Or.inr ⟨hinfoeq, rfl, hidlt⟩)

/-- C3: at the degenerate parameters `pS = 1, pG = 0` with prior 1/2 and a
correct response, the Bayesian-update denominator of `updateBKT` is zero,
yet `updateBKT` — whose return type has no error channel and whose body
performs no zero check — still returns an ordinary `BKTUpdateResult`
instead of failing with a `NumericError`.  (In the JavaScript source the
division yields `NaN`, which the clamp propagates; in this real-number
embedding `0 / 0 = 0`, so the transition step yields `pT = 1/4`.  Under
either semantics no error is raised, contradicting the claim.) -/
theorem claim_C3_bkt_no_numeric_error :
    bktDenominator (1 / 2) true ⟨1 / 2, 1 / 4, 1, 0⟩ = 0 ∧
      (updateBKT (1 / 2) true ⟨1 / 2, 1 / 4, 1, 0⟩).pLearned_before = 1 / 2 ∧
      (updateBKT (1 / 2) true ⟨1 / 2, 1 / 4, 1, 0⟩).pLearned_after = 1 / 4 ∧
      (updateBKT (1 / 2) true ⟨1 / 2, 1 / 4, 1, 0⟩).isMastered = false := by
  refine ⟨?_, rfl, ?_, ?_⟩
  · unfold bktDenominator
    norm_num
  · unfold updateBKT clamp01
    norm_num
  · unfold updateBKT clamp01
    simp only [decide_eq_false_iff_not]
    norm_num [MASTERY_THRESHOLD]

/-- C7: with the `UK_capitals` parameters (pL0 = 0.60, pT = 0.25,
pS = 0.08, pG = 0.25), a correct response from `pLearned = 0.60` yields
exactly the claimed two-step value (so certainly within ±1e-6), and the
result is not mastered. -/
theorem claim_C7_bkt_transition :
    bktParamsFor "UK_capitals" = some ⟨0.60, 0.25, 0.08, 0.25⟩ ∧
      |(updateBKT 0.60 true ⟨0.60, 0.25, 0.08, 0.25⟩).pLearned_after -
        (0.60 * 0.92 / (0.60 * 0.92 + 0.40 * 0.25) +
          (1 - 0.60 * 0.92 / (0.60 * 0.92 + 0.40 * 0.25)) * 0.25)| ≤ 1e-6 ∧
      (updateBKT 0.60 true ⟨0.60, 0.25, 0.08, 0.25⟩).isMastered = false := by
  refine ⟨rfl, ?_, ?_⟩
  · unfold updateBKT clamp01
    have : ((0.60 : ℝ) * (1 - 0.08)) / (0.60 * (1 - 0.08) + (1 - 0.60) * 0.25) =
        138 / 163 := by norm_num
    norm_num
  · unfold updateBKT clamp01
    simp only [decide_eq_false_iff_not]
    norm_num [MASTERY_THRESHOLD]

/- ───────────────────── EAP grid and positivity facts ───────────────────── -/

/-- The grid step is 0.05. -/
lemma gridStep_eq : gridStep = 1 / 20 := by
  unfold gridStep THETA_MAX THETA_MIN THETA_STEPS
  norm_num

/-- Grid points do not exceed the upper grid end. -/
lemma gridPoint_le_four (i : ℕ) (h : i < 161) : gridPoint i ≤ 4 := by
  unfold gridPoint THETA_MIN
  rw [gridStep_eq]
  have hi : (i : ℝ) ≤ 160 := by exact_mod_cast Nat.lt_succ_iff.mp h
  linarith

/-- Grid points are at least the lower grid end. -/
lemma gridPoint_ge_negfour (i : ℕ) : -4 ≤ gridPoint i := by
  unfold gridPoint THETA_MIN
  rw [gridStep_eq]
  have hi : (0 : ℝ) ≤ (i : ℝ) := Nat.cast_nonneg i
  linarith

/-- The Gaussian prior weight is positive. -/
lemma priorAt_pos (priorMean priorSd : ℝ) (i : ℕ) : 0 < priorAt priorMean priorSd i :=
  Real.exp_pos _

/-- Each per-response likelihood factor is positive for valid `c`. -/
lemma likeFactor_pos (t : ℝ) (r : Response)
    (h0 : 0 ≤ r.params.c) (h1 : r.params.c < 1) :
    0 < (if r.isCorrect then p3PL t r.params else 1 - p3PL t r.params) := by
  by_cases hr : r.isCorrect
  · rw [if_pos hr]
    exact p3PL_pos t r.params h0 h1
  · rw [if_neg hr]
    have := p3PL_lt_one t r.params h1
    linarith

/-- A fold of positive likelihood factors over a positive start stays
positive. -/
lemma foldl_factors_pos (t : ℝ) :
    ∀ (rs : List Response) (init : ℝ), 0 < init →
    (∀ r ∈ rs, 0 ≤ r.params.c ∧ r.params.c < 1) →
    0 < rs.foldl
      (fun acc r => acc * (if r.isCorrect then p3PL t r.params
                           else 1 - p3PL t r.params)) init := by
  intro rs
  induction rs with
  | nil =>
    intro init h _
    simpa using h
  | cons r rs ih =>
    intro init h hval
    rw [List.foldl_cons]
    exact ih _
      (mul_pos h (likeFactor_pos t r (hval r (List.mem_cons_self r rs)).1
        (hval r (List.mem_cons_self r rs)).2))
      (fun x hx => hval x (List.mem_cons_of_mem r hx))

/-- The unnormalised posterior weight is positive for valid parameters. -/
lemma likelihoodAt_pos (responses : List Response) (priorMean priorSd : ℝ) (i : ℕ)
    (hval : ∀ r ∈ responses, 0 ≤ r.params.c ∧ r.params.c < 1) :
    0 < likelihoodAt responses priorMean priorSd i :=
  foldl_factors_pos (gridPoint i) responses _ (priorAt_pos priorMean priorSd i) hval

/-- The normalisation sum is positive for valid parameters. -/
lemma likeSum_pos (responses : List Response) (priorMean priorSd : ℝ)
    (hval : ∀ r ∈ responses, 0 ≤ r.params.c ∧ r.params.c < 1) :
    0 < likeSum responses priorMean priorSd :=
  Finset.sum_pos (fun i _ => likelihoodAt_pos responses priorMean priorSd i hval)
    (by simp [THETA_STEPS])

/-- The normalised posterior is nonnegative for valid parameters. -/
lemma posteriorAt_nonneg (responses : List Response) (priorMean priorSd : ℝ) (i : ℕ)
    (hval : ∀ r ∈ responses, 0 ≤ r.params.c ∧ r.params.c < 1) :
    0 ≤ posteriorAt responses priorMean priorSd i :=
  div_nonneg (likelihoodAt_pos responses priorMean priorSd i hval).le
    (likeSum_pos responses priorMean priorSd hval).le

/-- The normalised posterior sums to one for valid parameters. -/
lemma posterior_sum_one (responses : List Response) (priorMean priorSd : ℝ)
    (hval : ∀ r ∈ responses, 0 ≤ r.params.c ∧ r.params.c < 1) :
    ∑ i in Finset.range THETA_STEPS, posteriorAt responses priorMean priorSd i = 1 := by
  unfold posteriorAt
  rw [← Finset.sum_div]
  exact div_self (ne_of_gt (likeSum_pos responses priorMean priorSd hval))

/-- The EAP point estimate never exceeds the upper grid end. -/
lemma eapTheta_le_four (responses : List Response) (priorMean priorSd : ℝ)
    (hval : ∀ r ∈ responses, 0 ≤ r.params.c ∧ r.params.c < 1) :
    eapThetaOf responses priorMean priorSd ≤ 4 := by
  unfold eapThetaOf
  have h1 : ∑ i in Finset.range THETA_STEPS,
      gridPoint i * posteriorAt responses priorMean priorSd i ≤
      ∑ i in Finset.range THETA_STEPS,
      4 * posteriorAt responses priorMean priorSd i := by
    refine Finset.sum_le_sum ?_
    intro i hi
    exact mul_le_mul_of_nonneg_right
      (gridPoint_le_four i (by simpa [THETA_STEPS] using Finset.mem_range.mp hi))
      (posteriorAt_nonneg responses priorMean priorSd i hval)
  rw [← Finset.mul_sum, posterior_sum_one responses priorMean priorSd hval] at h1
  linarith

/-- The EAP point estimate is at least the lower grid end. -/
lemma eapTheta_ge_negfour (responses : List Response) (priorMean priorSd : ℝ)
    (hval : ∀ r ∈ responses, 0 ≤ r.params.c ∧ r.params.c < 1) :
    -4 ≤ eapThetaOf responses priorMean priorSd := by
  unfold eapThetaOf
  have h1 : ∑ i in Finset.range THETA_STEPS,
      (-4) * posteriorAt responses priorMean priorSd i ≤
      ∑ i in Finset.range THETA_STEPS,
      gridPoint i * posteriorAt responses priorMean priorSd i := by
    refine Finset.sum_le_sum ?_
    intro i hi
    exact mul_le_mul_of_nonneg_right (gridPoint_ge_negfour i)
      (posteriorAt_nonneg responses priorMean priorSd i hval)
  rw [← Finset.mul_sum, posterior_sum_one responses priorMean priorSd hval] at h1
  linarith

/-- C4 counterexample: with prior mean 10 (and the default prior SD,
which is positive), the EAP of the empty response list is capped by the
grid at 4, so `|θ − priorMean| < 0.05` fails — `eapEstimate([])` does not
return the prior for every `priorMean`. -/
theorem claim_C4_counterexample :
    (0 : ℝ) < 543 / 1000 ∧
      ¬ |(eapEstimate [] 10 (543 / 1000)).theta - 10| < 0.05 := by
  refine ⟨by norm_num, ?_⟩
  have hval : ∀ r ∈ ([] : List Response), 0 ≤ r.params.c ∧ r.params.c < 1 := by
    simp
  have h4 : eapThetaOf [] 10 (543 / 1000) ≤ 4 :=
    eapTheta_le_four [] 10 (543 / 1000) hval
  have hth : (eapEstimate [] 10 (543 / 1000)).theta = eapThetaOf [] 10 (543 / 1000) :=
    rfl
  rw [hth]
  intro hcon
  rw [abs_lt] at hcon
  linarith [hcon.1]

/-- Reflecting the grid negates the grid point: `t₁₆₀₋ᵢ = −tᵢ`. -/
lemma gridPoint_reflect (j : ℕ) (h : j < 161) :
    gridPoint (160 - j) = -gridPoint j := by
  unfold gridPoint THETA_MIN
  rw [gridStep_eq]
  have hj : j ≤ 160 := Nat.lt_succ_iff.mp h
  have hcast : ((160 - j : ℕ) : ℝ) = 160 - (j : ℝ) := by
    push_cast [hj]
    ring
  rw [hcast]
  ring

/-- With prior mean 0 the empty-response posterior weight is symmetric
under grid reflection. -/
lemma likelihoodAt_empty_reflect (σ : ℝ) (j : ℕ) (h : j < 161) :
    likelihoodAt [] 0 σ (160 - j) = likelihoodAt [] 0 σ j := by
  show priorAt 0 σ (160 - j) = priorAt 0 σ j
  unfold priorAt
  rw [gridPoint_reflect j h]
  congr 1
  ring

/-- With prior mean 0 the grid-weighted sum of the empty-response
posterior vanishes by symmetry. -/
lemma weighted_sum_empty_zero (σ : ℝ) :
    ∑ i in Finset.range THETA_STEPS, gridPoint i * likelihoodAt [] 0 σ i = 0 := by
  have hrefl := Finset.sum_range_reflect
    (fun i => gridPoint i * likelihoodAt [] 0 σ i) 161
  have hkey : ∀ j ∈ Finset.range 161,
      gridPoint (161 - 1 - j) * likelihoodAt [] 0 σ (161 - 1 - j) =
      -(gridPoint j * likelihoodAt [] 0 σ j) := by
    intro j hj
    have hjlt : j < 161 := Finset.mem_range.mp hj
    have h1 : (161 - 1 - j : ℕ) = 160 - j := rfl
    rw [h1, gridPoint_reflect j hjlt, likelihoodAt_empty_reflect σ j hjlt]
    ring
  rw [Finset.sum_congr rfl hkey] at hrefl
  rw [Finset.sum_neg_distrib] at hrefl
  have : ∑ i in Finset.range THETA_STEPS, gridPoint i * likelihoodAt [] 0 σ i =
      ∑ j in Finset.range 161, gridPoint j * likelihoodAt [] 0 σ j := rfl
  rw [this]
  linarith [hrefl]

/-- C4 (amended): for the grid-symmetric prior mean 0 and every
`priorSd > 0`, the EAP of the empty response list recovers the prior mean
exactly — `θ = 0 = priorMean`, in particular `|θ − priorMean| < 0.05`.
(The original universally quantified claim fails: for a prior mean
outside the grid, e.g. 10, the returned θ is capped at the grid end, and
for large `priorSd` the returned sd reflects the truncated grid rather
than the prior sd.) -/
theorem claim_C4_empty_eap_prior (priorSd : ℝ) (h : 0 < priorSd) :
    (eapEstimate [] 0 priorSd).theta = 0 ∧
      |(eapEstimate [] 0 priorSd).theta - 0| < 0.05 := by
  have hth : (eapEstimate [] 0 priorSd).theta = eapThetaOf [] 0 priorSd := rfl
  have hzero : eapThetaOf [] 0 priorSd = 0 := by
    unfold eapThetaOf posteriorAt
    have hterm : ∀ i ∈ Finset.range THETA_STEPS,
        gridPoint i * (likelihoodAt [] 0 priorSd i / likeSum [] 0 priorSd) =
        gridPoint i * likelihoodAt [] 0 priorSd i / likeSum [] 0 priorSd := by
      intro i _
      ring
    rw [Finset.sum_congr rfl hterm, ← Finset.sum_div, weighted_sum_empty_zero priorSd,
      zero_div]
  rw [hth, hzero]
  norm_num

/-- Witness for C4 (amended) at `priorSd = 1`. -/
theorem claim_C4_empty_eap_prior_witness :
    (0 : ℝ) < 1 ∧
      ((eapEstimate [] 0 1).theta = 0 ∧ |(eapEstimate [] 0 1).theta - 0| < 0.05) :=
  ⟨by norm_num, claim_C4_empty_eap_prior 1 (by norm_num)⟩

/- ───────────── Repository well-formedness and route lemmas ───────────── -/

/-- Well-formedness of reachable repository states: session and question
ids are unique, interactions carry a non-empty `questionId` (the route
validates it on creation), and every interaction references an existing
question belonging to its session's quiz. -/
def WellFormed (db : DbState) : Prop :=
  (db.sessions.map SessionRow.id).Nodup ∧
  (db.questions.map QuestionRow.id).Nodup ∧
  (∀ i ∈ db.interactions, i.questionId ≠ "") ∧
  (∀ i ∈ db.interactions, ∃ s ∈ db.sessions, s.id = i.sessionId) ∧
  (∀ i ∈ db.interactions, ∃ q ∈ db.questions, q.id = i.questionId ∧
    ∀ s ∈ db.sessions, s.id = i.sessionId → q.quizId = s.quizId)

/-- `find?` by a duplicate-free key returns the unique element carrying
that key. -/
lemma find?_key_eq_some {α : Type} (key : α → String) :
    ∀ (l : List α), (l.map key).Nodup → ∀ x ∈ l, ∀ k : String, key x = k →
      l.find? (fun y => key y == k) = some x := by
  intro l
  induction l with
  | nil =>
    intro _ x hx
    exact absurd hx (List.not_mem_nil x)
  | cons h t ih =>
    intro hnodup x hx k hk
    have hnodup' : (key h :: t.map key).Nodup := by
      rw [List.map_cons] at hnodup
      exact hnodup
    obtain ⟨hhead, htail⟩ := List.nodup_cons.mp hnodup'
    rcases List.mem_cons.mp hx with hxh | hxt
    · subst hxh
      exact List.find?_cons_of_pos t (by simp [hk])
    · have hne : key h ≠ k := by
        intro he
        have hmem : key x ∈ t.map key := List.mem_map_of_mem key hxt
        rw [he, ← hk] at hhead
        exact hhead hmem
      rw [List.find?_cons_of_neg t (by simp [hne])]
      exact ih htail x hxt k hk

/-- The state written by `submitAnswerCommit` appends exactly one
interaction, for this session and question. -/
lemma submitAnswerCommit_interactions (db : DbState) (session : SessionRow)
    (question : QuestionRow) (req : SubmitRequest) (newId : String) :
    ∃ intr : InteractionRow, intr.sessionId = session.id ∧
      intr.questionId = req.questionId ∧
      (submitAnswerCommit db session question req newId).snd.interactions =
        db.interactions ++ [intr] :=
  ⟨_, rfl, rfl, rfl⟩

/-- The next-question route never touches the interactions table. -/
lemma nextQuestion_interactions (db : DbState) (sid : String) (now : ℕ) :
    (nextQuestionRoute db sid now).snd.interactions = db.interactions := by
  unfold nextQuestionRoute
  repeat' split
  all_goals rfl

/-- Case analysis of the answer route: either the state is unchanged (one
of the precondition checks failed), or the duplicate guard passed and the
state is the commit for the found session and question. -/
lemma submitAnswer_snd_cases (db : DbState) (sid : String) (req : SubmitRequest)
    (newId : String) :
    (submitAnswerRoute db sid req newId).snd = db ∨
    ∃ session, db.sessions.find? (fun s => s.id == sid) = some session ∧
      session.id = sid ∧
      (∀ j ∈ sessionInteractions db session.id, j.questionId ≠ req.questionId) ∧
      ∃ question,
        (submitAnswerRoute db sid req newId).snd =
          (submitAnswerCommit db session question req newId).snd := by
  unfold submitAnswerRoute
  split
  · exact Or.inl rfl
  · split
    · exact Or.inl rfl
    · next session hfind =>
      split
      · exact Or.inl rfl
      · split
        · exact Or.inl rfl
        · next question hfindq =>
          split
          · exact Or.inl rfl
          · split
            · exact Or.inl rfl
            · next hdup =>
              right
              refine ⟨session, hfind, ?_, ?_, question, rfl⟩
              · have := List.find?_some hfind
                simpa using this
              · intro j hj heq
                apply hdup
                rw [List.any_eq_true]
                exact ⟨j, hj, by simp [heq]⟩

/-- The invariant of C8: no two interactions in one session share a
`questionId`. -/
def NoDupAnswers (db : DbState) : Prop :=
  db.interactions.Pairwise
    (fun a b => a.sessionId = b.sessionId → a.questionId ≠ b.questionId)

/-- C8: submitting an answer for a question that already has an
interaction in the session fails with a `Conflict`-class error (the
source's 400 for a completed session or for a duplicate answer — both
`Conflict` in the specification's taxonomy) and performs no state change;
and both routes preserve the no-duplicate-answer invariant, so no two
interactions in one session ever share a `questionId`. -/
theorem claim_C8_duplicate_conflict :
    (∀ (db : DbState) (sid : String) (req : SubmitRequest) (newId : String),
      WellFormed db →
      ∀ i ∈ db.interactions, i.sessionId = sid → i.questionId = req.questionId →
      req.selectedAnswer ≠ "" →
      ((submitAnswerRoute db sid req newId).fst =
          SubmitResponse.error 400 "Session already completed" ∨
        (submitAnswerRoute db sid req newId).fst =
          SubmitResponse.error 400 "Question already answered in this session") ∧
      (submitAnswerRoute db sid req newId).snd = db) ∧
    (∀ (db : DbState) (sid : String) (req : SubmitRequest) (newId : String) (now : ℕ),
      NoDupAnswers db →
      NoDupAnswers (submitAnswerRoute db sid req newId).snd ∧
      NoDupAnswers (nextQuestionRoute db sid now).snd) := by
  constructor
  · intro db sid req newId hwf i hi hisid hiqid hans
    obtain ⟨hnodupS, hnodupQ, hqne, hsref, hqref⟩ := hwf
    have hqid : req.questionId ≠ "" := hiqid ▸ hqne i hi
    have hvalid : ¬(req.questionId = "" ∨ req.selectedAnswer = "") := by
      push_neg
      exact ⟨hqid, hans⟩
    obtain ⟨s, hsmem, hsid⟩ := hsref i hi
    have hfindS : db.sessions.find? (fun x => x.id == sid) = some s :=
      find?_key_eq_some SessionRow.id db.sessions hnodupS s hsmem sid
        (by rw [hsid, hisid])
    obtain ⟨q, hqmem, hqeq, hquiz⟩ := hqref i hi
    have hfindQ : db.questions.find? (fun x => x.id == req.questionId) = some q :=
      find?_key_eq_some QuestionRow.id db.questions hnodupQ q hqmem req.questionId
        (by rw [hqeq, hiqid])
    have hquiz_eq : q.quizId = s.quizId := hquiz s hsmem hsid
    have hdup : (sessionInteractions db s.id).any
        (fun j => j.questionId == req.questionId) = true := by
      rw [List.any_eq_true]
      refine ⟨i, ?_, by simp [hiqid]⟩
      exact List.mem_filter.mpr ⟨hi, by simp [hsid]⟩
    by_cases hcomp : s.completedAt.isSome
    · have heval : submitAnswerRoute db sid req newId =
          (.error 400 "Session already completed", db) := by
        unfold submitAnswerRoute
        rw [if_neg hvalid, hfindS]
        simp [hcomp]
      rw [heval]
      exact ⟨Or.inl rfl, rfl⟩
    · have hcomp' : s.completedAt.isSome = false := by simpa using hcomp
      have heval : submitAnswerRoute db sid req newId =
          (.error 400 "Question already answered in this session", db) := by
        unfold submitAnswerRoute
        rw [if_neg hvalid, hfindS]
        simp [hcomp', hfindQ, hquiz_eq, hdup]
      rw [heval]
      exact ⟨Or.inr rfl, rfl⟩
  · intro db sid req newId now hnd
    constructor
    · rcases submitAnswer_snd_cases db sid req newId with h | ⟨s, hfind, hsid, hguard, q, heq⟩
      · show ((submitAnswerRoute db sid req newId).snd).interactions.Pairwise _
        rw [h]
        exact hnd
      · obtain ⟨intr, hintr_sid, hintr_qid, hinters⟩ :=
          submitAnswerCommit_interactions db s q req newId
        show ((submitAnswerRoute db sid req newId).snd).interactions.Pairwise _
        rw [heq, hinters, List.pairwise_append]
        refine ⟨hnd, by simp, ?_⟩
        intro a ha b hb
        rw [List.mem_singleton] at hb
        subst hb
        intro hsess
        have hmem : a ∈ sessionInteractions db s.id :=
          List.mem_filter.mpr ⟨ha, by simp [hsess, hintr_sid]⟩
        have := hguard a hmem
        rw [hintr_qid]
        exact this
    · show ((nextQuestionRoute db sid now).snd).interactions.Pairwise _
      rw [nextQuestion_interactions]
      exact hnd

/-- A concrete active session over the seeded quiz. -/
def wSession : SessionRow :=
  { id := "s1", quizId := "quiz-uk-geo-adaptive", condition := "adaptive"
    theta := -0.780, thetaSd := 0.543, kcStates := [], completedAt := none }

/-- A concrete recorded interaction: `s1` has already answered `q-001`. -/
def wInteraction : InteractionRow :=
  { id := "i1", sessionId := "s1", questionId := "q-001", selectedAnswer := "A"
    isCorrect := true, responseTimeMs := 1200, theta_before := -0.780
    theta_after := -0.5, pLearned_before := 0.4, pLearned_after := 0.5 }

/-- A concrete repository state: one session, the seeded bank, one
answered question. -/
def wDb : DbState :=
  { sessions := [wSession], questions := seededQuestions
    interactions := [wInteraction] }

/-- The concrete state is well-formed. -/
lemma wDb_wf : WellFormed wDb := by
  refine ⟨?_, ?_, ?_, ?_, ?_⟩
  · simp [wDb, wSession]
  · show (seededQuestions.map QuestionRow.id).Nodup
    decide
  · intro i hi
    have : i = wInteraction := by simpa [wDb] using hi
    subst this
    decide
  · intro i hi
    have : i = wInteraction := by simpa [wDb] using hi
    subst this
    exact ⟨wSession, by simp [wDb], rfl⟩
  · intro i hi
    have : i = wInteraction := by simpa [wDb] using hi
    subst this
    refine ⟨seedQ001, by simp [wDb, seededQuestions], rfl, ?_⟩
    intro s hs hsid
    have : s = wSession := by simpa [wDb] using hs
    subst this
    rfl

/-- The concrete state satisfies the no-duplicate-answer invariant. -/
lemma wDb_nodup : NoDupAnswers wDb := by
  show ([wInteraction] : List InteractionRow).Pairwise _
  simp

/-- Witness for C8 at the concrete state: re-answering `q-001` in session
`s1` is rejected without state change, and both routes preserve the
invariant there. -/
theorem claim_C8_duplicate_conflict_witness :
    (((submitAnswerRoute wDb "s1" ⟨"q-001", "B", none⟩ "i2").fst =
        SubmitResponse.error 400 "Session already completed" ∨
      (submitAnswerRoute wDb "s1" ⟨"q-001", "B", none⟩ "i2").fst =
        SubmitResponse.error 400 "Question already answered in this session") ∧
      (submitAnswerRoute wDb "s1" ⟨"q-001", "B", none⟩ "i2").snd = wDb) ∧
    (NoDupAnswers (submitAnswerRoute wDb "s1" ⟨"q-001", "B", none⟩ "i2").snd ∧
      NoDupAnswers (nextQuestionRoute wDb "s1" 0).snd) :=
  ⟨claim_C8_duplicate_conflict.1 wDb "s1" ⟨"q-001", "B", none⟩ "i2" wDb_wf
      wInteraction (by simp [wDb]) rfl rfl (by decide),
    claim_C8_duplicate_conflict.2 wDb "s1" ⟨"q-001", "B", none⟩ "i2" 0 wDb_nodup⟩

/-- C9 (amended): the session lifecycle around `completedAt`.
(a) A `selectNext` that finds an active session with every quiz question
answered sets `completedAt` (exactly this one write) and returns the
completed payload;
(b) a `selectNext` on a session whose `completedAt` is already set fails
with the completed-session error — not the completed payload the
specification promises — and performs no state change;
(c) a `submitAnswer` on a completed session never succeeds and performs
no state change. -/
theorem claim_C9_completed_immutable :
    (∀ (db : DbState) (sid : String) (now : ℕ) (s : SessionRow),
      db.sessions.find? (fun x => x.id == sid) = some s →
      s.completedAt = none →
      (quizQuestions db s.quizId).isEmpty = false →
      (answeredIdsOf db s.id).length ≥ (quizQuestions db s.quizId).length →
      nextQuestionRoute db sid now =
        (.completed s.theta (answeredIdsOf db s.id).length,
          { db with
            sessions := updateSessionRow db.sessions s.id
              (fun x => { x with completedAt := some now }) })) ∧
    (∀ (db : DbState) (sid : String) (now t : ℕ) (s : SessionRow),
      db.sessions.find? (fun x => x.id == sid) = some s →
      s.completedAt = some t →
      nextQuestionRoute db sid now = (.error 400 "Session already completed", db)) ∧
    (∀ (db : DbState) (sid : String) (req : SubmitRequest) (newId : String)
      (tt : ℕ) (s : SessionRow),
      db.sessions.find? (fun x => x.id == sid) = some s →
      s.completedAt = some tt →
      (submitAnswerRoute db sid req newId).snd = db ∧
      ∀ p : SubmitOk, (submitAnswerRoute db sid req newId).fst ≠ .ok p) := by
  refine ⟨?_, ?_, ?_⟩
  · intro db sid now s hfind hcomp hne hge
    unfold nextQuestionRoute
    rw [hfind]
    simp [hcomp, hne, hge]
  · intro db sid now t s hfind hcomp
    unfold nextQuestionRoute
    rw [hfind]
    simp [hcomp]
  · intro db sid req newId tt s hfind hcomp
    unfold submitAnswerRoute
    by_cases hvalid : req.questionId = "" ∨ req.selectedAnswer = ""
    · rw [if_pos hvalid]
      exact ⟨rfl, fun p => by simp⟩
    · rw [if_neg hvalid, hfind]
      simp [hcomp]

/-- A concrete session that is already completed. -/
def wCompletedSession : SessionRow :=
  { id := "s2", quizId := "quiz-uk-geo-adaptive", condition := "adaptive"
    theta := -0.780, thetaSd := 0.543, kcStates := [], completedAt := some 100 }

/-- A concrete repository state holding only the completed session. -/
def wDbCompleted : DbState :=
  { sessions := [wCompletedSession], questions := seededQuestions
    interactions := [] }

/-- C9 counterexample: on a completed session, `selectNext` returns the
completed-session *error*, not the completed payload the claim promises
(the state is still left unchanged). -/
theorem claim_C9_counterexample :
    (nextQuestionRoute wDbCompleted "s2" 5).fst =
      NextQResponse.error 400 "Session already completed" ∧
    (nextQuestionRoute wDbCompleted "s2" 5).snd = wDbCompleted :=
  ⟨rfl, rfl⟩

/-- An interaction answering question `qid` in session `s1`. -/
def wAnswer (qid : String) : InteractionRow :=
  { id := "i-" ++ qid, sessionId := "s1", questionId := qid
    selectedAnswer := "A", isCorrect := true, responseTimeMs := 0
    theta_before := 0, theta_after := 0, pLearned_before := 0
    pLearned_after := 0 }

/-- A concrete state in which session `s1` has answered all five seeded
questions but is not yet marked completed. -/
def wDbAll : DbState :=
  { sessions := [wSession], questions := seededQuestions
    interactions :=
      [wAnswer "q-001", wAnswer "q-002", wAnswer "q-003",
       wAnswer "q-004", wAnswer "q-005"] }

/-- Witness for C9 (amended) at the concrete states: the all-answered
session transitions to completed with exactly the `completedAt` write;
the completed session yields the error without mutation for both routes. -/
theorem claim_C9_completed_immutable_witness :
    (nextQuestionRoute wDbAll "s1" 7 =
      (.completed wSession.theta (answeredIdsOf wDbAll wSession.id).length,
        { wDbAll with
          sessions := updateSessionRow wDbAll.sessions wSession.id
            (fun x => { x with completedAt := some 7 }) })) ∧
    (nextQuestionRoute wDbCompleted "s2" 5 =
      (.error 400 "Session already completed", wDbCompleted)) ∧
    ((submitAnswerRoute wDbCompleted "s2" ⟨"q-001", "A", none⟩ "i9").snd =
        wDbCompleted ∧
      ∀ p : SubmitOk,
        (submitAnswerRoute wDbCompleted "s2" ⟨"q-001", "A", none⟩ "i9").fst ≠
          .ok p) :=
  ⟨claim_C9_completed_immutable.1 wDbAll "s1" 7 wSession rfl rfl rfl (by decide),
    claim_C9_completed_immutable.2.1 wDbCompleted "s2" 5 100 wCompletedSession rfl rfl,
    claim_C9_completed_immutable.2.2 wDbCompleted "s2" ⟨"q-001", "A", none⟩ "i9"
      100 wCompletedSession rfl rfl⟩

/-- The success payload of `submitAnswerCommit`, by definition: the
selected answer is stored uppercased and correctness is the comparison
with the computed correct label. -/
lemma submitAnswerCommit_fst_ok (db : DbState) (session : SessionRow)
    (question : QuestionRow) (req : SubmitRequest) (newId : String) :
    ∃ payload : SubmitOk,
      (submitAnswerCommit db session question req newId).fst = .ok payload ∧
      payload.selectedAnswer = req.selectedAnswer.toUpper ∧
      payload.correct =
        decide (req.selectedAnswer.toUpper = correctLabelOf question.options) :=
  ⟨_, rfl, rfl, rfl⟩

/-- The interaction stored by `submitAnswerCommit`, by definition: the
selected answer is stored uppercased and correctness is the comparison
with the computed correct label. -/
lemma submitAnswerCommit_intr_fields (db : DbState) (session : SessionRow)
    (question : QuestionRow) (req : SubmitRequest) (newId : String) :
    ∃ intr : InteractionRow,
      (submitAnswerCommit db session question req newId).snd.interactions =
        db.interactions ++ [intr] ∧
      intr.selectedAnswer = req.selectedAnswer.toUpper ∧
      intr.isCorrect =
        decide (req.selectedAnswer.toUpper = correctLabelOf question.options) :=
  ⟨_, rfl, rfl, rfl⟩

/-- C10: the answer route never validates `selectedAnswer` against the
labels A–D — on an active session, for an unanswered question of the
session's quiz, any non-empty `selectedAnswer` string is accepted: the
call succeeds, the uppercased string is stored in the new interaction,
and any value other than the correct label (including strings outside
A–D) is recorded as incorrect. -/
theorem claim_C10_no_label_validation
    (db : DbState) (sid qid ans newId : String) (rt : Option ℕ)
    (s : SessionRow) (hfind : db.sessions.find? (fun x => x.id == sid) = some s)
    (hcomp : s.completedAt = none)
    (q : QuestionRow) (hfindq : db.questions.find? (fun x => x.id == qid) = some q)
    (hquiz : q.quizId = s.quizId)
    (hnotans : ∀ j ∈ sessionInteractions db s.id, j.questionId ≠ qid)
    (hqid : qid ≠ "") (hans : ans ≠ "") :
    ∃ payload : SubmitOk,
      (submitAnswerRoute db sid ⟨qid, ans, rt⟩ newId).fst = .ok payload ∧
      payload.selectedAnswer = ans.toUpper ∧
      (ans.toUpper ≠ correctLabelOf q.options → payload.correct = false) ∧
      ∃ intr : InteractionRow,
        (submitAnswerRoute db sid ⟨qid, ans, rt⟩ newId).snd.interactions =
          db.interactions ++ [intr] ∧
        intr.selectedAnswer = ans.toUpper ∧
        (ans.toUpper ≠ correctLabelOf q.options → intr.isCorrect = false) := by
  have hdup : (sessionInteractions db s.id).any
      (fun j => j.questionId == qid) = false := by
    rw [List.any_eq_false]
    intro j hj
    simp [hnotans j hj]
  have heval : submitAnswerRoute db sid ⟨qid, ans, rt⟩ newId =
      submitAnswerCommit db s q ⟨qid, ans, rt⟩ newId := by
    unfold submitAnswerRoute
    rw [if_neg (by push_neg; exact ⟨hqid, hans⟩), hfind]
    simp [hcomp, hfindq, hquiz, hdup]
  obtain ⟨payload, hfst, hsel, hcor⟩ :=
    submitAnswerCommit_fst_ok db s q ⟨qid, ans, rt⟩ newId
  obtain ⟨intr, hint, hisel, hicor⟩ :=
    submitAnswerCommit_intr_fields db s q ⟨qid, ans, rt⟩ newId
  refine ⟨payload, by rw [heval, hfst], hsel, ?_, intr, by rw [heval, hint], hisel, ?_⟩
  · intro hne
    rw [hcor]
    exact decide_eq_false hne
  · intro hne
    rw [hicor]
    exact decide_eq_false hne

/-- Witness for C10: submitting the out-of-range answer string `"e!"` for
the unanswered `q-002` on the active session succeeds, stores `"E!"`, and
records the interaction as incorrect. -/
theorem claim_C10_no_label_validation_witness :
    ∃ payload : SubmitOk,
      (submitAnswerRoute wDb "s1" ⟨"q-002", "e!", none⟩ "i2").fst = .ok payload ∧
      payload.selectedAnswer = ("e!" : String).toUpper ∧
      (("e!" : String).toUpper ≠ correctLabelOf seedQ002.options →
        payload.correct = false) ∧
      ∃ intr : InteractionRow,
        (submitAnswerRoute wDb "s1" ⟨"q-002", "e!", none⟩ "i2").snd.interactions =
          wDb.interactions ++ [intr] ∧
        intr.selectedAnswer = ("e!" : String).toUpper ∧
        (("e!" : String).toUpper ≠ correctLabelOf seedQ002.options →
          intr.isCorrect = false) :=
  claim_C10_no_label_validation wDb "s1" "q-002" "e!" "i2" none wSession rfl rfl
    seedQ002 rfl rfl
    (by
      intro j hj
      have hjw : j = wInteraction := by
        simpa [sessionInteractions, wDb, wInteraction, wSession] using hj
      subst hjw
      decide)
    (by decide) (by decide)

/- ─────────────── Credible-interval scan characterisation (C6) ─────────────── -/

/-- Cumulative posterior mass of the first `n` grid points. -/
noncomputable def cumOf (post : ℕ → ℝ) (n : ℕ) : ℝ :=
  ∑ i in Finset.range n, post i

/-- The first grid point is the grid minimum (the sentinel value). -/
lemma gridPoint_zero : gridPoint 0 = THETA_MIN := by
  unfold gridPoint
  simp

/-- The last grid point is the grid maximum. -/
lemma gridPoint_160 : gridPoint 160 = THETA_MAX := by
  unfold gridPoint THETA_MIN THETA_MAX
  rw [gridStep_eq]
  norm_num

/-- Grid points are monotone in the index. -/
lemma gridPoint_mono {i j : ℕ} (h : i ≤ j) : gridPoint i ≤ gridPoint j := by
  unfold gridPoint
  rw [gridStep_eq]
  have : (i : ℝ) ≤ (j : ℝ) := Nat.cast_le.mpr h
  linarith

/-- Positive-index grid points are strictly above the sentinel. -/
lemma gridPoint_ne_min {j : ℕ} (h : 1 ≤ j) : gridPoint j ≠ THETA_MIN := by
  have h1 : gridPoint 1 ≤ gridPoint j := gridPoint_mono h
  have h2 : gridPoint 1 = -79 / 20 := by
    unfold gridPoint THETA_MIN
    rw [gridStep_eq]
    norm_num
  unfold THETA_MIN
  intro hcon
  rw [hcon] at h1
  rw [h2] at h1
  norm_num at h1

/-- Invariant of the `ci95Low` slot while the loop is still running after
`n` iterations: either the sentinel is still (or again) in place with the
cumulative mass still below 0.025, or the sentinel was written at index 0
(`n ≤ 1`), or the sentinel-quirk overwrite happened (`gridPoint 1`), or
the slot holds the true crossing point `gridPoint j` with less than 0.025
mass strictly below it. -/
def LoInv (post : ℕ → ℝ) (n : ℕ) (lo : ℝ) : Prop :=
  (lo = THETA_MIN ∧ cumOf post n < 0.025) ∨
  (lo = THETA_MIN ∧ n ≤ 1) ∨
  lo = gridPoint 1 ∨
  (∃ j, 1 ≤ j ∧ j ≤ 160 ∧ lo = gridPoint j ∧ cumOf post j < 0.025)

/-- What the final `ci95Low` can be. -/
def LoFinal (post : ℕ → ℝ) (lo : ℝ) : Prop :=
  lo = THETA_MIN ∨ lo = gridPoint 1 ∨
  ∃ j, j ≤ 160 ∧ lo = gridPoint j ∧ cumOf post j < 0.025

/-- Any running `ci95Low` state is one of the admissible final states. -/
lemma LoInv_final (post : ℕ → ℝ) (n : ℕ) (lo : ℝ) (h : LoInv post n lo) :
    LoFinal post lo := by
  rcases h with ⟨h1, _⟩ | ⟨h1, _⟩ | h1 | ⟨j, _, hj2, hj3, hj4⟩
  · exact Or.inl h1
  · exact Or.inl h1
  · exact Or.inr (Or.inl h1)
  · exact Or.inr (Or.inr ⟨j, hj2, hj3, hj4⟩)

/-- One loop iteration preserves the `ci95Low` invariant. -/
lemma LoInv_step (post : ℕ → ℝ) (n : ℕ) (hn : n ≤ 160) (lo : ℝ)
    (h : LoInv post n lo) :
    LoInv post (n + 1)
      (if cumOf post (n + 1) ≥ 0.025 ∧ lo = THETA_MIN then gridPoint n else lo) := by
  by_cases hcond : cumOf post (n + 1) ≥ 0.025 ∧ lo = THETA_MIN
  · rw [if_pos hcond]
    match n, hn with
    | 0, _ =>
      exact Or.inr (Or.inl ⟨gridPoint_zero, le_refl 1⟩)
    | 1, _ =>
      exact Or.inr (Or.inr (Or.inl rfl))
    | (m + 2), hm =>
      have hcum : cumOf post (m + 2) < 0.025 := by
        rcases h with ⟨_, h2⟩ | ⟨_, h2⟩ | h2 | ⟨j, hj1, _, hj3, _⟩
        · exact h2
        · omega
        · exact absurd (h2.symm.trans hcond.2) (gridPoint_ne_min (le_refl 1))
        · exact absurd (hj3.symm.trans hcond.2) (gridPoint_ne_min hj1)
      exact Or.inr (Or.inr (Or.inr ⟨m + 2, by omega, hm, rfl, hcum⟩))
  · rw [if_neg hcond]
    rcases h with ⟨h1, _⟩ | ⟨h1, _⟩ | h1 | ⟨j, hj1, hj2, hj3, hj4⟩
    · refine Or.inl ⟨h1, ?_⟩
      by_contra hge
      exact hcond ⟨le_of_not_lt hge, h1⟩
    · refine Or.inl ⟨h1, ?_⟩
      by_contra hge
      exact hcond ⟨le_of_not_lt hge, h1⟩
    · exact Or.inr (Or.inr (Or.inl h1))
    · exact Or.inr (Or.inr (Or.inr ⟨j, hj1, hj2, hj3, hj4⟩))

/-- Invariant of the whole scan state after `n` iterations. -/
def ScanInv (post : ℕ → ℝ) (n : ℕ) (s : CIAcc) : Prop :=
  (s.broke = false → s.cum = cumOf post n ∧ s.hi = THETA_MAX ∧ LoInv post n s.lo) ∧
  (s.broke = true → LoFinal post s.lo ∧
    ∃ k, k ≤ 160 ∧ s.hi = gridPoint k ∧ 0.975 ≤ cumOf post (k + 1))

/-- One loop iteration preserves the scan invariant. -/
lemma ScanInv_step (post : ℕ → ℝ) (n : ℕ) (hn : n ≤ 160) (s : CIAcc)
    (h : ScanInv post n s) : ScanInv post (n + 1) (ciStep post s n) := by
  by_cases hb : s.broke = true
  · have hstep : ciStep post s n = s := by
      unfold ciStep
      rw [if_pos hb]
    rw [hstep]
    exact ⟨fun hff => absurd hff (by rw [hb]; simp), fun _ => h.2 hb⟩
  · have hb' : s.broke = false := by simpa using hb
    obtain ⟨hcum, hhi, hlo⟩ := h.1 hb'
    have hstep : ciStep post s n =
        (if s.cum + post n ≥ 0.975 ∧ s.hi = THETA_MAX
         then (⟨s.cum + post n,
               if s.cum + post n ≥ 0.025 ∧ s.lo = THETA_MIN then gridPoint n else s.lo,
               gridPoint n, true⟩ : CIAcc)
         else (⟨s.cum + post n,
               if s.cum + post n ≥ 0.025 ∧ s.lo = THETA_MIN then gridPoint n else s.lo,
               s.hi, false⟩ : CIAcc)) := by
      unfold ciStep
      rw [if_neg hb]
    rw [hstep]
    have hcum' : s.cum + post n = cumOf post (n + 1) := by
      rw [hcum]
      exact (Finset.sum_range_succ post n).symm
    have hloInv : LoInv post (n + 1)
        (if s.cum + post n ≥ 0.025 ∧ s.lo = THETA_MIN then gridPoint n else s.lo) := by
      rw [hcum']
      exact LoInv_step post n hn s.lo hlo
    by_cases hbr : s.cum + post n ≥ 0.975 ∧ s.hi = THETA_MAX
    · rw [if_pos hbr]
      refine ⟨fun hff => by simp at hff, fun _ => ?_⟩
      exact ⟨LoInv_final post (n + 1) _ hloInv, n, hn, rfl, by rw [← hcum']; exact hbr.1⟩
    · rw [if_neg hbr]
      exact ⟨fun _ => ⟨hcum', hhi, hloInv⟩, fun htt => by simp at htt⟩

/-- The scan invariant holds after any prefix of the loop. -/
lemma ciScan_inv (post : ℕ → ℝ) :
    ∀ n, n ≤ 161 →
      ScanInv post n
        ((List.range n).foldl (ciStep post) ⟨0, THETA_MIN, THETA_MAX, false⟩) := by
  intro n
  induction n with
  | zero =>
    intro _
    refine ⟨fun _ => ⟨?_, rfl, ?_⟩, fun hff => by simp at hff⟩
    · simp [cumOf]
    · exact Or.inl ⟨rfl, by norm_num [cumOf]⟩
  | succ m ih =>
    intro hm
    rw [List.range_succ, List.foldl_append, List.foldl_cons, List.foldl_nil]
    exact ScanInv_step post m (by omega) _ (ih (by omega))

/-- The final `ci95Low` of the scan. -/
lemma ciScan_lo_final (post : ℕ → ℝ) : LoFinal post (ciScan post).lo := by
  have heq : ciScan post =
      (List.range 161).foldl (ciStep post) ⟨0, THETA_MIN, THETA_MAX, false⟩ := rfl
  have h := ciScan_inv post 161 (le_refl _)
  rw [heq]
  by_cases hb : ((List.range 161).foldl (ciStep post)
      ⟨0, THETA_MIN, THETA_MAX, false⟩).broke = true
  · exact (h.2 hb).1
  · exact LoInv_final post 161 _ (h.1 (by simpa using hb)).2.2

/-- The final `ci95High` of the scan: a grid point with at least 0.975
cumulative mass up to and including it. -/
lemma ciScan_hi_final (post : ℕ → ℝ) (htot : 0.975 ≤ cumOf post 161) :
    ∃ k, k ≤ 160 ∧ (ciScan post).hi = gridPoint k ∧ 0.975 ≤ cumOf post (k + 1) := by
  have heq : ciScan post =
      (List.range 161).foldl (ciStep post) ⟨0, THETA_MIN, THETA_MAX, false⟩ := rfl
  have h := ciScan_inv post 161 (le_refl _)
  rw [heq]
  by_cases hb : ((List.range 161).foldl (ciStep post)
      ⟨0, THETA_MIN, THETA_MAX, false⟩).broke = true
  · exact (h.2 hb).2
  · refine ⟨160, le_refl _, ?_, htot⟩
    rw [(h.1 (by simpa using hb)).2.1]
    exact gridPoint_160.symm

/-- If less than 0.025 posterior mass lies strictly below grid point `j`,
the EAP mean is at least `gridPoint j − 0.2` (mass below is at worst at
−4, which is at most 8 below `gridPoint j`). -/
lemma theta_ge_gridPoint_sub (responses : List Response) (priorMean priorSd : ℝ)
    (hval : ∀ r ∈ responses, 0 ≤ r.params.c ∧ r.params.c < 1)
    (j : ℕ) (hj : j ≤ 160)
    (hcum : cumOf (posteriorAt responses priorMean priorSd) j < 0.025) :
    gridPoint j - 0.2 ≤ eapThetaOf responses priorMean priorSd := by
  set post := posteriorAt responses priorMean priorSd with hpost
  have hp : ∀ i, 0 ≤ post i :=
    fun i => posteriorAt_nonneg responses priorMean priorSd i hval
  have hsum : ∑ i in Finset.range 161, post i = 1 :=
    posterior_sum_one responses priorMean priorSd hval
  have hj161 : j ≤ 161 := by omega
  have hsplitp : ∑ i in Finset.Ico 0 j, post i + ∑ i in Finset.Ico j 161, post i =
      ∑ i in Finset.Ico 0 161, post i :=
    Finset.sum_Ico_consecutive post (Nat.zero_le j) hj161
  have hcumIco : ∑ i in Finset.Ico 0 j, post i = cumOf post j := by
    rw [cumOf, Finset.range_eq_Ico]
  have h161 : ∑ i in Finset.Ico 0 161, post i = 1 := by
    rw [← Finset.range_eq_Ico]
    exact hsum
  have hrest : ∑ i in Finset.Ico j 161, post i = 1 - cumOf post j := by
    rw [hcumIco] at hsplitp
    rw [h161] at hsplitp
    linarith
  have hsplitt : ∑ i in Finset.Ico 0 j, gridPoint i * post i +
      ∑ i in Finset.Ico j 161, gridPoint i * post i =
      ∑ i in Finset.Ico 0 161, gridPoint i * post i :=
    Finset.sum_Ico_consecutive _ (Nat.zero_le j) hj161
  have hb1 : (-4) * cumOf post j ≤ ∑ i in Finset.Ico 0 j, gridPoint i * post i := by
    rw [← hcumIco, Finset.mul_sum]
    refine Finset.sum_le_sum ?_
    intro i _
    exact mul_le_mul_of_nonneg_right (gridPoint_ge_negfour i) (hp i)
  have hb2 : gridPoint j * (1 - cumOf post j) ≤
      ∑ i in Finset.Ico j 161, gridPoint i * post i := by
    rw [← hrest, Finset.mul_sum]
    refine Finset.sum_le_sum ?_
    intro i hi
    exact mul_le_mul_of_nonneg_right (gridPoint_mono (Finset.mem_Ico.mp hi).1) (hp i)
  have htheta : eapThetaOf responses priorMean priorSd =
      ∑ i in Finset.Ico 0 161, gridPoint i * post i := by
    rw [← Finset.range_eq_Ico]
    rfl
  have hc0 : 0 ≤ cumOf post j := Finset.sum_nonneg fun i _ => hp i
  have hgj1 : -4 ≤ gridPoint j := gridPoint_ge_negfour j
  have hgj2 : gridPoint j ≤ 4 := gridPoint_le_four j (by omega)
  rw [htheta, ← hsplitt]
  nlinarith [hb1, hb2,
    mul_le_mul_of_nonneg_right (le_of_lt hcum)
      (by linarith : (0 : ℝ) ≤ 4 + gridPoint j),
    mul_nonneg hc0 (by linarith : (0 : ℝ) ≤ 4 + gridPoint j)]

/-- If at least 0.975 posterior mass lies at or below grid point `j`, the
EAP mean is at most `gridPoint j + 0.2`. -/
lemma theta_le_gridPoint_add (responses : List Response) (priorMean priorSd : ℝ)
    (hval : ∀ r ∈ responses, 0 ≤ r.params.c ∧ r.params.c < 1)
    (j : ℕ) (hj : j ≤ 160)
    (hcum : 0.975 ≤ cumOf (posteriorAt responses priorMean priorSd) (j + 1)) :
    eapThetaOf responses priorMean priorSd ≤ gridPoint j + 0.2 := by
  set post := posteriorAt responses priorMean priorSd with hpost
  have hp : ∀ i, 0 ≤ post i :=
    fun i => posteriorAt_nonneg responses priorMean priorSd i hval
  have hsum : ∑ i in Finset.range 161, post i = 1 :=
    posterior_sum_one responses priorMean priorSd hval
  have hj161 : j + 1 ≤ 161 := by omega
  have hsplitp : ∑ i in Finset.Ico 0 (j + 1), post i +
      ∑ i in Finset.Ico (j + 1) 161, post i =
      ∑ i in Finset.Ico 0 161, post i :=
    Finset.sum_Ico_consecutive post (Nat.zero_le (j + 1)) hj161
  have hcumIco : ∑ i in Finset.Ico 0 (j + 1), post i = cumOf post (j + 1) := by
    rw [cumOf, Finset.range_eq_Ico]
  have h161 : ∑ i in Finset.Ico 0 161, post i = 1 := by
    rw [← Finset.range_eq_Ico]
    exact hsum
  have hrest : ∑ i in Finset.Ico (j + 1) 161, post i = 1 - cumOf post (j + 1) := by
    rw [hcumIco] at hsplitp
    rw [h161] at hsplitp
    linarith
  have hsplitt : ∑ i in Finset.Ico 0 (j + 1), gridPoint i * post i +
      ∑ i in Finset.Ico (j + 1) 161, gridPoint i * post i =
      ∑ i in Finset.Ico 0 161, gridPoint i * post i :=
    Finset.sum_Ico_consecutive _ (Nat.zero_le (j + 1)) hj161
  have hb1 : ∑ i in Finset.Ico 0 (j + 1), gridPoint i * post i ≤
      gridPoint j * cumOf post (j + 1) := by
    rw [← hcumIco, Finset.mul_sum]
    refine Finset.sum_le_sum ?_
    intro i hi
    have hij : i ≤ j := by
      have := (Finset.mem_Ico.mp hi).2
      omega
    exact mul_le_mul_of_nonneg_right (gridPoint_mono hij) (hp i)
  have hb2 : ∑ i in Finset.Ico (j + 1) 161, gridPoint i * post i ≤
      4 * (1 - cumOf post (j + 1)) := by
    rw [← hrest, Finset.mul_sum]
    refine Finset.sum_le_sum ?_
    intro i hi
    have hi161 : i < 161 := (Finset.mem_Ico.mp hi).2
    exact mul_le_mul_of_nonneg_right (gridPoint_le_four i hi161) (hp i)
  have htheta : eapThetaOf responses priorMean priorSd =
      ∑ i in Finset.Ico 0 161, gridPoint i * post i := by
    rw [← Finset.range_eq_Ico]
    rfl
  have hc1 : cumOf post (j + 1) ≤ 1 := by
    have h0 : 0 ≤ ∑ i in Finset.Ico (j + 1) 161, post i :=
      Finset.sum_nonneg fun i _ => hp i
    have hs := hsplitp
    rw [hcumIco, h161] at hs
    linarith
  have hgj1 : -4 ≤ gridPoint j := gridPoint_ge_negfour j
  have hgj2 : gridPoint j ≤ 4 := gridPoint_le_four j (by omega)
  rw [htheta, ← hsplitt]
  nlinarith [hb1, hb2,
    mul_le_mul_of_nonneg_right hcum (by linarith : (0 : ℝ) ≤ 4 - gridPoint j),
    mul_le_mul_of_nonneg_right hc1 (by linarith : (0 : ℝ) ≤ 4 - gridPoint j)]

set_option maxRecDepth 4000 in
/-- C6 (amended): for every response list with valid item parameters and
every prior with `priorSd > 0`, the `eapEstimate` result satisfies
`sd ≥ 0` and `ci95Low ≤ theta ≤ ci95High` *within 0.2 (four grid steps)*
on each side.  The one-grid-step (0.05) version of the claim is false:
with up to 0.025 posterior mass allowed strictly outside a credible-
interval endpoint, and the grid spanning 8 units, the mean can be pulled
up to `0.025 · 8 = 0.2` past the endpoint, and a counterexample posterior
realising more than 0.05 of drift exists. -/
theorem claim_C6_eap_sd_ci_bounds (responses : List Response)
    (priorMean priorSd : ℝ) (hsd : 0 < priorSd)
    (hval : ∀ r ∈ responses, 0 ≤ r.params.c ∧ r.params.c < 1) :
    0 ≤ (eapEstimate responses priorMean priorSd).sd ∧
    (eapEstimate responses priorMean priorSd).ci95Low ≤
      (eapEstimate responses priorMean priorSd).theta + 0.2 ∧
    (eapEstimate responses priorMean priorSd).theta ≤
      (eapEstimate responses priorMean priorSd).ci95High + 0.2 := by
  have hth : (eapEstimate responses priorMean priorSd).theta =
      eapThetaOf responses priorMean priorSd := rfl
  have hlo_eq : (eapEstimate responses priorMean priorSd).ci95Low =
      (ciScan (posteriorAt responses priorMean priorSd)).lo := rfl
  have hhi_eq : (eapEstimate responses priorMean priorSd).ci95High =
      (ciScan (posteriorAt responses priorMean priorSd)).hi := rfl
  have hsd_eq : (eapEstimate responses priorMean priorSd).sd =
      eapSdOf responses priorMean priorSd := rfl
  have hthge : -4 ≤ eapThetaOf responses priorMean priorSd :=
    eapTheta_ge_negfour responses priorMean priorSd hval
  refine ⟨?_, ?_, ?_⟩
  · rw [hsd_eq]
    exact Real.sqrt_nonneg _
  · rw [hlo_eq, hth]
    rcases ciScan_lo_final (posteriorAt responses priorMean priorSd) with
      h | h | ⟨j, hj, hl, hcum⟩
    · rw [h]
      unfold THETA_MIN
      linarith
    · rw [h]
      have h1 : gridPoint 1 = -79 / 20 := by
        unfold gridPoint THETA_MIN
        rw [gridStep_eq]
        norm_num
      rw [h1]
      linarith
    · rw [hl]
      have := theta_ge_gridPoint_sub responses priorMean priorSd hval j hj hcum
      linarith
  · rw [hhi_eq, hth]
    have htot : 0.975 ≤ cumOf (posteriorAt responses priorMean priorSd) 161 := by
      have h1 : cumOf (posteriorAt responses priorMean priorSd) 161 = 1 :=
        posterior_sum_one responses priorMean priorSd hval
      rw [h1]
      norm_num
    obtain ⟨k, hk, hhi, hcum⟩ :=
      ciScan_hi_final (posteriorAt responses priorMean priorSd) htot
    rw [hhi]
    have := theta_le_gridPoint_add responses priorMean priorSd hval k hk hcum
    linarith

/-- Witness for C6 (amended) at the empty response list with the unit
prior. -/
theorem claim_C6_eap_sd_ci_bounds_witness :
    (0 : ℝ) < 1 ∧
      (0 ≤ (eapEstimate [] 0 1).sd ∧
        (eapEstimate [] 0 1).ci95Low ≤ (eapEstimate [] 0 1).theta + 0.2 ∧
        (eapEstimate [] 0 1).theta ≤ (eapEstimate [] 0 1).ci95High + 0.2) :=
  ⟨by norm_num, claim_C6_eap_sd_ci_bounds [] 0 1 (by norm_num) (by simp)⟩

/- ───────────────────── C6 counterexample construction ───────────────────── -/

/-- A very discriminating item sitting between the last two grid points. -/
noncomputable def cexMain : IRTParams := ⟨400, 3.975, 1 / 4⟩

/-- The same item with a tuned guessing parameter. -/
noncomputable def cexTuner : IRTParams := ⟨400, 3.975, 91 / 200⟩

/-- Seven correct responses to sharp items at `b = 3.975`: the posterior
concentrates on the last grid point, with a thin flat tail below. -/
noncomputable def cexResponses : List Response :=
  [⟨cexTuner, true⟩, ⟨cexMain, true⟩, ⟨cexMain, true⟩, ⟨cexMain, true⟩,
   ⟨cexMain, true⟩, ⟨cexMain, true⟩, ⟨cexMain, true⟩]

/-- `exp 17 ≥ 100000` (via `(1 + 17/16)^16`). -/
lemma exp17_ge : (100000 : ℝ) ≤ Real.exp 17 := by
  have h1 : Real.exp 17 = Real.exp (17 / 16) ^ (16 : ℕ) := by
    rw [← Real.exp_nat_mul]
    norm_num
  have h2 : (33 / 16 : ℝ) ≤ Real.exp (17 / 16) := by
    have := Real.add_one_le_exp (17 / 16 : ℝ)
    linarith
  have h3 : ((33 / 16 : ℝ)) ^ (16 : ℕ) ≤ Real.exp (17 / 16) ^ (16 : ℕ) :=
    pow_le_pow_left (by norm_num) h2 16
  have h4 : (100000 : ℝ) ≤ (33 / 16 : ℝ) ^ (16 : ℕ) := by norm_num
  rw [h1]
  linarith

/-- Grid point 159 is 3.95. -/
lemma gridPoint_159 : gridPoint 159 = 79 / 20 := by
  unfold gridPoint THETA_MIN
  rw [gridStep_eq]
  norm_num

/-- Grid point 160 is 4. -/
lemma gridPoint_160_val : gridPoint 160 = 4 := by
  rw [gridPoint_160]
  unfold THETA_MAX
  norm_num

/-- Below the last grid point, the sharp main item's probability is barely
above its floor 1/4. -/
lemma cexMain_ub (i : ℕ) (hi : i ≤ 159) :
    p3PL (gridPoint i) cexMain ≤ 1 / 4 + (3 / 4) / 100001 := by
  have ht : gridPoint i ≤ 79 / 20 := by
    have := gridPoint_mono hi
    rw [gridPoint_159] at this
    exact this
  have harg : (17 : ℝ) ≤ -Dconst * cexMain.a * (gridPoint i - cexMain.b) := by
    show (17 : ℝ) ≤ -Dconst * (400 : ℝ) * (gridPoint i - 3.975)
    unfold Dconst
    nlinarith
  have hE : (100000 : ℝ) ≤
      Real.exp (-Dconst * cexMain.a * (gridPoint i - cexMain.b)) :=
    le_trans exp17_ge (Real.exp_le_exp.mpr harg)
  have h := p3PL_le_of_exp_ge (gridPoint i) cexMain 100000 (by norm_num [cexMain])
    (by norm_num) hE
  have e : cexMain.c + (1 - cexMain.c) / (1 + 100000) =
      1 / 4 + (3 / 4) / 100001 := by
    show (1 / 4 : ℝ) + (1 - 1 / 4) / (1 + 100000) = 1 / 4 + (3 / 4) / 100001
    norm_num
  rw [e] at h
  exact h

/-- Below the last grid point, the tuner item's probability is barely
above its floor 91/200. -/
lemma cexTuner_ub (i : ℕ) (hi : i ≤ 159) :
    p3PL (gridPoint i) cexTuner ≤ 91 / 200 + (109 / 200) / 100001 := by
  have ht : gridPoint i ≤ 79 / 20 := by
    have := gridPoint_mono hi
    rw [gridPoint_159] at this
    exact this
  have harg : (17 : ℝ) ≤ -Dconst * cexTuner.a * (gridPoint i - cexTuner.b) := by
    show (17 : ℝ) ≤ -Dconst * (400 : ℝ) * (gridPoint i - 3.975)
    unfold Dconst
    nlinarith
  have hE : (100000 : ℝ) ≤
      Real.exp (-Dconst * cexTuner.a * (gridPoint i - cexTuner.b)) :=
    le_trans exp17_ge (Real.exp_le_exp.mpr harg)
  have h := p3PL_le_of_exp_ge (gridPoint i) cexTuner 100000 (by norm_num [cexTuner])
    (by norm_num) hE
  have e : cexTuner.c + (1 - cexTuner.c) / (1 + 100000) =
      91 / 200 + (109 / 200) / 100001 := by
    show (91 / 200 : ℝ) + (1 - 91 / 200) / (1 + 100000) =
      91 / 200 + (109 / 200) / 100001
    norm_num
  rw [e] at h
  exact h

/-- At the last grid point the sharp main item's probability is almost 1. -/
lemma cexMain_lb160 :
    1 / 4 + (3 / 4) / (1 + 1 / 100000) ≤ p3PL (gridPoint 160) cexMain := by
  have hE : Real.exp (-Dconst * cexMain.a * (gridPoint 160 - cexMain.b)) ≤
      1 / 100000 := by
    have harg : -Dconst * cexMain.a * (gridPoint 160 - cexMain.b) = -17 := by
      show -Dconst * (400 : ℝ) * (gridPoint 160 - 3.975) = -17
      rw [gridPoint_160_val]
      unfold Dconst
      norm_num
    rw [harg, Real.exp_neg]
    rw [inv_eq_one_div]
    exact one_div_le_one_div_of_le (by norm_num) exp17_ge
  have h := p3PL_ge_of_exp_le (gridPoint 160) cexMain (1 / 100000)
    (by norm_num [cexMain]) hE
  have e : cexMain.c + (1 - cexMain.c) / (1 + 1 / 100000) =
      1 / 4 + (3 / 4) / (1 + 1 / 100000) := by
    show (1 / 4 : ℝ) + (1 - 1 / 4) / (1 + 1 / 100000) =
      1 / 4 + (3 / 4) / (1 + 1 / 100000)
    norm_num
  rw [e] at h
  exact h

/-- At the last grid point the tuner item's probability is almost 1. -/
lemma cexTuner_lb160 :
    91 / 200 + (109 / 200) / (1 + 1 / 100000) ≤ p3PL (gridPoint 160) cexTuner := by
  have hE : Real.exp (-Dconst * cexTuner.a * (gridPoint 160 - cexTuner.b)) ≤
      1 / 100000 := by
    have harg : -Dconst * cexTuner.a * (gridPoint 160 - cexTuner.b) = -17 := by
      show -Dconst * (400 : ℝ) * (gridPoint 160 - 3.975) = -17
      rw [gridPoint_160_val]
      unfold Dconst
      norm_num
    rw [harg, Real.exp_neg]
    rw [inv_eq_one_div]
    exact one_div_le_one_div_of_le (by norm_num) exp17_ge
  have h := p3PL_ge_of_exp_le (gridPoint 160) cexTuner (1 / 100000)
    (by norm_num [cexTuner]) hE
  have e : cexTuner.c + (1 - cexTuner.c) / (1 + 1 / 100000) =
      91 / 200 + (109 / 200) / (1 + 1 / 100000) := by
    show (91 / 200 : ℝ) + (1 - 91 / 200) / (1 + 1 / 100000) =
      91 / 200 + (109 / 200) / (1 + 1 / 100000)
    norm_num
  rw [e] at h
  exact h

/-- The near-flat prior is at most 1. -/
lemma prior_cex_ub (i : ℕ) : priorAt 0 1000 i ≤ 1 := by
  unfold priorAt
  have e : (-0.5 : ℝ) * ((gridPoint i - 0) / 1000) ^ 2 =
      -(0.5 * ((gridPoint i - 0) / 1000) ^ 2) := by ring
  rw [e]
  have hy : (0 : ℝ) ≤ 0.5 * ((gridPoint i - 0) / 1000) ^ 2 := by positivity
  calc Real.exp (-(0.5 * ((gridPoint i - 0) / 1000) ^ 2)) ≤
      1 / (1 + 0.5 * ((gridPoint i - 0) / 1000) ^ 2) :=
        exp_neg_le_inv_one_add _ hy
    _ ≤ 1 := by
        rw [div_le_one (by linarith)]
        linarith

/-- The near-flat prior is at least `1 − 8·10⁻⁶` on the grid. -/
lemma prior_cex_lb (i : ℕ) (hi : i < 161) :
    1 - 8 / 1000000 ≤ priorAt 0 1000 i := by
  unfold priorAt
  have hg1 : -4 ≤ gridPoint i := gridPoint_ge_negfour i
  have hg2 : gridPoint i ≤ 4 := gridPoint_le_four i hi
  have hy : 0.5 * ((gridPoint i - 0) / 1000) ^ 2 ≤ 8 / 1000000 := by
    have hsq : (gridPoint i - 0) ^ 2 ≤ 16 := by nlinarith
    have : ((gridPoint i - 0) / 1000) ^ 2 = (gridPoint i - 0) ^ 2 / 1000000 := by
      ring
    rw [this]
    linarith
  have h := Real.add_one_le_exp (-0.5 * ((gridPoint i - 0) / 1000) ^ 2)
  have e : (-0.5 : ℝ) * ((gridPoint i - 0) / 1000) ^ 2 =
      -(0.5 * ((gridPoint i - 0) / 1000) ^ 2) := by ring
  rw [e] at h ⊢
  linarith

/-- The unnormalised posterior weight of the counterexample, spelled out. -/
lemma cex_like (i : ℕ) :
    likelihoodAt cexResponses 0 1000 i =
      priorAt 0 1000 i * p3PL (gridPoint i) cexTuner *
        p3PL (gridPoint i) cexMain * p3PL (gridPoint i) cexMain *
        p3PL (gridPoint i) cexMain * p3PL (gridPoint i) cexMain *
        p3PL (gridPoint i) cexMain * p3PL (gridPoint i) cexMain := rfl

/-- Product bound: componentwise bounds multiply. -/
lemma mul_bound (a b A B : ℝ) (ha0 : 0 ≤ a) (haA : a ≤ A) (hb0 : 0 ≤ b)
    (hbB : b ≤ B) : a * b ≤ A * B :=
  mul_le_mul haA hbB hb0 (le_trans ha0 haA)

/-- Positivity facts for the counterexample factors. -/
lemma cex_factor_pos (i : ℕ) :
    0 < p3PL (gridPoint i) cexMain ∧ 0 < p3PL (gridPoint i) cexTuner ∧
      0 < priorAt 0 1000 i :=
  ⟨p3PL_pos _ _ (by norm_num [cexMain]) (by norm_num [cexMain]),
    p3PL_pos _ _ (by norm_num [cexTuner]) (by norm_num [cexTuner]),
    priorAt_pos 0 1000 i⟩

/-- Upper bound on each below-the-top posterior weight. -/
lemma cex_w_ub (i : ℕ) (hi : i ≤ 159) :
    likelihoodAt cexResponses 0 1000 i ≤
      1 * (91 / 200 + (109 / 200) / 100001) * (1 / 4 + (3 / 4) / 100001) *
        (1 / 4 + (3 / 4) / 100001) * (1 / 4 + (3 / 4) / 100001) *
        (1 / 4 + (3 / 4) / 100001) * (1 / 4 + (3 / 4) / 100001) *
        (1 / 4 + (3 / 4) / 100001) := by
  obtain ⟨hm, ht, hp⟩ := cex_factor_pos i
  have hmu := cexMain_ub i hi
  have htu := cexTuner_ub i hi
  have hpu := prior_cex_ub i
  rw [cex_like]
  have h1 : priorAt 0 1000 i * p3PL (gridPoint i) cexTuner ≤
      1 * (91 / 200 + (109 / 200) / 100001) :=
    mul_bound _ _ _ _ hp.le hpu ht.le htu
  have hpos1 : 0 ≤ priorAt 0 1000 i * p3PL (gridPoint i) cexTuner :=
    mul_nonneg hp.le ht.le
  have h2 := mul_bound _ _ _ _ hpos1 h1 hm.le hmu
  have hpos2 : (0:ℝ) ≤ priorAt 0 1000 i * p3PL (gridPoint i) cexTuner *
      p3PL (gridPoint i) cexMain := mul_nonneg hpos1 hm.le
  have h3 := mul_bound _ _ _ _ hpos2 h2 hm.le hmu
  have hpos3 := mul_nonneg hpos2 hm.le
  have h4 := mul_bound _ _ _ _ hpos3 h3 hm.le hmu
  have hpos4 := mul_nonneg hpos3 hm.le
  have h5 := mul_bound _ _ _ _ hpos4 h4 hm.le hmu
  have hpos5 := mul_nonneg hpos4 hm.le
  have h6 := mul_bound _ _ _ _ hpos5 h5 hm.le hmu
  have hpos6 := mul_nonneg hpos5 hm.le
  exact mul_bound _ _ _ _ hpos6 h6 hm.le hmu

/-- Lower bound on each below-the-top posterior weight. -/
lemma cex_w_lb (i : ℕ) (hi : i < 161) :
    (1 - 8 / 1000000) * (91 / 200) * (1 / 4) * (1 / 4) * (1 / 4) * (1 / 4) *
        (1 / 4) * (1 / 4) ≤
      likelihoodAt cexResponses 0 1000 i := by
  obtain ⟨hm, ht, hp⟩ := cex_factor_pos i
  have hml : (1 / 4 : ℝ) ≤ p3PL (gridPoint i) cexMain := by
    have h := p3PL_gt_c (gridPoint i) cexMain (by norm_num [cexMain])
    have e : cexMain.c = 1 / 4 := rfl
    rw [e] at h
    exact h.le
  have htl : (91 / 200 : ℝ) ≤ p3PL (gridPoint i) cexTuner := by
    have h := p3PL_gt_c (gridPoint i) cexTuner (by norm_num [cexTuner])
    have e : cexTuner.c = 91 / 200 := rfl
    rw [e] at h
    exact h.le
  have hpl := prior_cex_lb i hi
  rw [cex_like]
  have h1 : (1 - 8 / 1000000) * (91 / 200) ≤
      priorAt 0 1000 i * p3PL (gridPoint i) cexTuner :=
    mul_bound _ _ _ _ (by norm_num) hpl (by norm_num) htl
  have h2 := mul_bound _ _ _ _ (by norm_num : (0:ℝ) ≤ (1 - 8 / 1000000) * (91 / 200))
    h1 (by norm_num) hml
  have h3 := mul_bound _ _ _ _
    (by norm_num : (0:ℝ) ≤ (1 - 8 / 1000000) * (91 / 200) * (1 / 4)) h2
    (by norm_num) hml
  have h4 := mul_bound _ _ _ _
    (by norm_num : (0:ℝ) ≤ (1 - 8 / 1000000) * (91 / 200) * (1 / 4) * (1 / 4)) h3
    (by norm_num) hml
  have h5 := mul_bound _ _ _ _
    (by norm_num :
      (0:ℝ) ≤ (1 - 8 / 1000000) * (91 / 200) * (1 / 4) * (1 / 4) * (1 / 4)) h4
    (by norm_num) hml
  have h6 := mul_bound _ _ _ _
    (by norm_num :
      (0:ℝ) ≤ (1 - 8 / 1000000) * (91 / 200) * (1 / 4) * (1 / 4) * (1 / 4) *
        (1 / 4)) h5
    (by norm_num) hml
  exact mul_bound _ _ _ _
    (by norm_num :
      (0:ℝ) ≤ (1 - 8 / 1000000) * (91 / 200) * (1 / 4) * (1 / 4) * (1 / 4) *
        (1 / 4) * (1 / 4)) h6
    (by norm_num) hml

/-- Lower bound on the top (last-grid-point) posterior weight. -/
lemma cex_w160_lb :
    (1 - 8 / 1000000) * (91 / 200 + (109 / 200) / (1 + 1 / 100000)) *
        (1 / 4 + (3 / 4) / (1 + 1 / 100000)) * (1 / 4 + (3 / 4) / (1 + 1 / 100000)) *
        (1 / 4 + (3 / 4) / (1 + 1 / 100000)) * (1 / 4 + (3 / 4) / (1 + 1 / 100000)) *
        (1 / 4 + (3 / 4) / (1 + 1 / 100000)) * (1 / 4 + (3 / 4) / (1 + 1 / 100000)) ≤
      likelihoodAt cexResponses 0 1000 160 := by
  have hml := cexMain_lb160
  have htl := cexTuner_lb160
  have hpl := prior_cex_lb 160 (by omega)
  rw [cex_like]
  have h1 : (1 - 8 / 1000000) * (91 / 200 + (109 / 200) / (1 + 1 / 100000)) ≤
      priorAt 0 1000 160 * p3PL (gridPoint 160) cexTuner :=
    mul_bound _ _ _ _ (by norm_num) hpl (by norm_num) htl
  have h2 := mul_bound _ _ _ _
    (by norm_num :
      (0:ℝ) ≤ (1 - 8 / 1000000) * (91 / 200 + (109 / 200) / (1 + 1 / 100000)))
    h1 (by norm_num) hml
  have h3 := mul_bound _ _ _ _
    (by positivity :
      (0:ℝ) ≤ (1 - 8 / 1000000) * (91 / 200 + (109 / 200) / (1 + 1 / 100000)) *
        (1 / 4 + (3 / 4) / (1 + 1 / 100000)))
    h2 (by norm_num) hml
  have h4 := mul_bound _ _ _ _
    (by positivity :
      (0:ℝ) ≤ (1 - 8 / 1000000) * (91 / 200 + (109 / 200) / (1 + 1 / 100000)) *
        (1 / 4 + (3 / 4) / (1 + 1 / 100000)) * (1 / 4 + (3 / 4) / (1 + 1 / 100000)))
    h3 (by norm_num) hml
  have h5 := mul_bound _ _ _ _
    (by positivity :
      (0:ℝ) ≤ (1 - 8 / 1000000) * (91 / 200 + (109 / 200) / (1 + 1 / 100000)) *
        (1 / 4 + (3 / 4) / (1 + 1 / 100000)) * (1 / 4 + (3 / 4) / (1 + 1 / 100000)) *
        (1 / 4 + (3 / 4) / (1 + 1 / 100000)))
    h4 (by norm_num) hml
  have h6 := mul_bound _ _ _ _
    (by positivity :
      (0:ℝ) ≤ (1 - 8 / 1000000) * (91 / 200 + (109 / 200) / (1 + 1 / 100000)) *
        (1 / 4 + (3 / 4) / (1 + 1 / 100000)) * (1 / 4 + (3 / 4) / (1 + 1 / 100000)) *
        (1 / 4 + (3 / 4) / (1 + 1 / 100000)) * (1 / 4 + (3 / 4) / (1 + 1 / 100000)))
    h5 (by norm_num) hml
  exact mul_bound _ _ _ _
    (by positivity :
      (0:ℝ) ≤ (1 - 8 / 1000000) * (91 / 200 + (109 / 200) / (1 + 1 / 100000)) *
        (1 / 4 + (3 / 4) / (1 + 1 / 100000)) * (1 / 4 + (3 / 4) / (1 + 1 / 100000)) *
        (1 / 4 + (3 / 4) / (1 + 1 / 100000)) * (1 / 4 + (3 / 4) / (1 + 1 / 100000)) *
        (1 / 4 + (3 / 4) / (1 + 1 / 100000)))
    h6 (by norm_num) hml

/-- Upper bound on the top posterior weight: at most 1. -/
lemma cex_w160_ub : likelihoodAt cexResponses 0 1000 160 ≤ 1 := by
  obtain ⟨hm, ht, hp⟩ := cex_factor_pos 160
  have hmu : p3PL (gridPoint 160) cexMain ≤ 1 :=
    le_of_lt (p3PL_lt_one _ _ (by norm_num [cexMain]))
  have htu : p3PL (gridPoint 160) cexTuner ≤ 1 :=
    le_of_lt (p3PL_lt_one _ _ (by norm_num [cexTuner]))
  have hpu := prior_cex_ub 160
  rw [cex_like]
  have h1 : priorAt 0 1000 160 * p3PL (gridPoint 160) cexTuner ≤ 1 * 1 :=
    mul_bound _ _ _ _ hp.le hpu ht.le htu
  have hpos1 := mul_nonneg hp.le ht.le
  have h2 := mul_bound _ _ _ _ hpos1 h1 hm.le hmu
  have hpos2 := mul_nonneg hpos1 hm.le
  have h3 := mul_bound _ _ _ _ hpos2 h2 hm.le hmu
  have hpos3 := mul_nonneg hpos2 hm.le
  have h4 := mul_bound _ _ _ _ hpos3 h3 hm.le hmu
  have hpos4 := mul_nonneg hpos3 hm.le
  have h5 := mul_bound _ _ _ _ hpos4 h4 hm.le hmu
  have hpos5 := mul_nonneg hpos4 hm.le
  have h6 := mul_bound _ _ _ _ hpos5 h5 hm.le hmu
  have hpos6 := mul_nonneg hpos5 hm.le
  have h7 := mul_bound _ _ _ _ hpos6 h6 hm.le hmu
  calc priorAt 0 1000 160 * p3PL (gridPoint 160) cexTuner *
      p3PL (gridPoint 160) cexMain * p3PL (gridPoint 160) cexMain *
      p3PL (gridPoint 160) cexMain * p3PL (gridPoint 160) cexMain *
      p3PL (gridPoint 160) cexMain * p3PL (gridPoint 160) cexMain ≤
      1 * 1 * 1 * 1 * 1 * 1 * 1 * 1 := h7
    _ = 1 := by norm_num

/-- When the cumulative mass stays below 0.025 until the last grid point
and reaches 0.975 there, both credible-interval endpoints land on the
last grid point (the 0.025-crossing and the `break` happen in the same,
final iteration). -/
lemma ciScan_last_point (post : ℕ → ℝ)
    (hsmall : ∀ j, j ≤ 160 → cumOf post j < 0.025)
    (hbig : 0.975 ≤ cumOf post 161) :
    (ciScan post).lo = gridPoint 160 := by
  have hrun : ∀ n, n ≤ 160 →
      (List.range n).foldl (ciStep post) ⟨0, THETA_MIN, THETA_MAX, false⟩ =
        ⟨cumOf post n, THETA_MIN, THETA_MAX, false⟩ := by
    intro n
    induction n with
    | zero =>
      intro _
      have h0 : cumOf post 0 = 0 := by simp [cumOf]
      rw [h0]
      rfl
    | succ m ih =>
      intro hm
      rw [List.range_succ, List.foldl_append, List.foldl_cons, List.foldl_nil,
        ih (by omega)]
      have hc : cumOf post m + post m = cumOf post (m + 1) :=
        (Finset.sum_range_succ post m).symm
      have hsm : cumOf post (m + 1) < 0.025 := hsmall (m + 1) (by omega)
      have hbrn : ¬(cumOf post m + post m ≥ 0.975 ∧ (THETA_MAX : ℝ) = THETA_MAX) := by
        rw [hc]
        intro hcon
        linarith [hcon.1]
      have hlon : ¬(cumOf post m + post m ≥ 0.025 ∧ (THETA_MIN : ℝ) = THETA_MIN) := by
        rw [hc]
        intro hcon
        linarith [hcon.1]
      have hstep : ciStep post ⟨cumOf post m, THETA_MIN, THETA_MAX, false⟩ m =
          ⟨cumOf post m + post m,
           if cumOf post m + post m ≥ 0.025 ∧ (THETA_MIN : ℝ) = THETA_MIN
           then gridPoint m else THETA_MIN,
           THETA_MAX, false⟩ := by
        unfold ciStep
        rw [if_neg (by simp : ¬((false : Bool) = true)), if_neg hbrn]
      rw [hstep, if_neg hlon, hc]
  have heq : ciScan post =
      (List.range 161).foldl (ciStep post) ⟨0, THETA_MIN, THETA_MAX, false⟩ := rfl
  have h161 : (161 : ℕ) = 160 + 1 := rfl
  rw [heq, h161, List.range_succ, List.foldl_append, List.foldl_cons,
    List.foldl_nil, hrun 160 (le_refl _)]
  have hc : cumOf post 160 + post 160 = cumOf post 161 :=
    (Finset.sum_range_succ post 160).symm
  have hge : cumOf post 160 + post 160 ≥ 0.975 := by
    rw [hc]
    exact hbig
  have hstep : ciStep post ⟨cumOf post 160, THETA_MIN, THETA_MAX, false⟩ 160 =
      ⟨cumOf post 160 + post 160,
       if cumOf post 160 + post 160 ≥ 0.025 ∧ (THETA_MIN : ℝ) = THETA_MIN
       then gridPoint 160 else THETA_MIN,
       gridPoint 160, true⟩ := by
    unfold ciStep
    rw [if_neg (by simp : ¬((false : Bool) = true)), if_pos ⟨hge, rfl⟩]
  rw [hstep, if_pos ⟨by linarith, rfl⟩]

/-- Gauss sum of the distances from 3.95 down to each lower grid point. -/
lemma cex_drag_sum : ∑ i in Finset.range 160, (79 / 20 - gridPoint i) = (636 : ℝ) := by
  have hterm : ∀ i ∈ Finset.range 160,
      (79 / 20 - gridPoint i : ℝ) = 159 / 20 - (i : ℝ) / 20 := by
    intro i _
    unfold gridPoint THETA_MIN
    rw [gridStep_eq]
    ring
  rw [Finset.sum_congr rfl hterm, Finset.sum_sub_distrib, Finset.sum_const,
    Finset.card_range]
  have hsum : ∑ i in Finset.range 160, ((i : ℝ) / 20) = 636 := by
    rw [← Finset.sum_div]
    have h2 : ∑ i in Finset.range 160, (i : ℝ) =
        ((∑ i in Finset.range 160, i : ℕ) : ℝ) := by
      push_cast
      rfl
    have h3 : (∑ i in Finset.range 160, i) = 12720 := by
      have := Finset.sum_range_id_mul_two 160
      omega
    rw [h2, h3]
    norm_num
  rw [hsum]
  simp [nsmul_eq_mul]
  norm_num

/-- Numeric value bound for the below-top weight upper bound. -/
lemma cex_Wu_val :
    (1 * (91 / 200 + (109 / 200) / 100001) * (1 / 4 + (3 / 4) / 100001) *
      (1 / 4 + (3 / 4) / 100001) * (1 / 4 + (3 / 4) / 100001) *
      (1 / 4 + (3 / 4) / 100001) * (1 / 4 + (3 / 4) / 100001) *
      (1 / 4 + (3 / 4) / 100001) : ℝ) ≤ 112 / 1000000 := by
  norm_num

/-- Numeric value bound for the below-top weight lower bound. -/
lemma cex_Wmin_val :
    (111 / 1000000 : ℝ) ≤
      (1 - 8 / 1000000) * (91 / 200) * (1 / 4) * (1 / 4) * (1 / 4) * (1 / 4) *
        (1 / 4) * (1 / 4) := by
  norm_num

/-- Numeric value bound for the top weight lower bound. -/
lemma cex_W160_val :
    (999 / 1000 : ℝ) ≤
      (1 - 8 / 1000000) * (91 / 200 + (109 / 200) / (1 + 1 / 100000)) *
        (1 / 4 + (3 / 4) / (1 + 1 / 100000)) * (1 / 4 + (3 / 4) / (1 + 1 / 100000)) *
        (1 / 4 + (3 / 4) / (1 + 1 / 100000)) * (1 / 4 + (3 / 4) / (1 + 1 / 100000)) *
        (1 / 4 + (3 / 4) / (1 + 1 / 100000)) * (1 / 4 + (3 / 4) / (1 + 1 / 100000)) := by
  norm_num

set_option maxHeartbeats 1000000 in
set_option maxRecDepth 8000 in
/-- C6 counterexample: seven correct responses to maximally discriminating
items at `b = 3.975` under a near-flat prior concentrate the posterior on
the last grid point; `ci95Low` lands on 4 while the EAP mean is dragged
below 3.95 by the thin flat tail, so `ci95Low ≤ theta` fails by more than
one grid step (0.05) — the claim's one-step tolerance is violated. -/
theorem claim_C6_counterexample :
    (eapEstimate cexResponses 0 1000).ci95Low = 4 ∧
      (eapEstimate cexResponses 0 1000).theta < 79 / 20 ∧
      ¬ ((eapEstimate cexResponses 0 1000).ci95Low ≤
          (eapEstimate cexResponses 0 1000).theta + 0.05) := by
  have hval : ∀ r ∈ cexResponses, 0 ≤ r.params.c ∧ r.params.c < 1 := by
    intro r hr
    simp only [cexResponses, List.mem_cons, List.not_mem_nil, or_false] at hr
    rcases hr with h | h | h | h | h | h | h <;>
      (subst h; constructor <;> norm_num [cexMain, cexTuner])
  have hWpos : ∀ i, 0 < likelihoodAt cexResponses 0 1000 i :=
    fun i => likelihoodAt_pos cexResponses 0 1000 i hval
  have hS_pos : 0 < likeSum cexResponses 0 1000 :=
    likeSum_pos cexResponses 0 1000 hval
  have hSsplit : likeSum cexResponses 0 1000 =
      (∑ i in Finset.range 160, likelihoodAt cexResponses 0 1000 i) +
        likelihoodAt cexResponses 0 1000 160 := by
    show (∑ i in Finset.range 161, likelihoodAt cexResponses 0 1000 i) = _
    exact Finset.sum_range_succ _ 160
  have hB_pos : 0 ≤ ∑ i in Finset.range 160, likelihoodAt cexResponses 0 1000 i :=
    Finset.sum_nonneg fun i _ => (hWpos i).le
  have hB_ub : (∑ i in Finset.range 160, likelihoodAt cexResponses 0 1000 i) ≤
      160 * (112 / 1000000) := by
    have h1 : (∑ i in Finset.range 160, likelihoodAt cexResponses 0 1000 i) ≤
        ∑ _i in Finset.range 160,
          (1 * (91 / 200 + (109 / 200) / 100001) * (1 / 4 + (3 / 4) / 100001) *
            (1 / 4 + (3 / 4) / 100001) * (1 / 4 + (3 / 4) / 100001) *
            (1 / 4 + (3 / 4) / 100001) * (1 / 4 + (3 / 4) / 100001) *
            (1 / 4 + (3 / 4) / 100001) : ℝ) := by
      refine Finset.sum_le_sum ?_
      intro i hi
      refine cex_w_ub i ?_
      have := Finset.mem_range.mp hi
      omega
    have h2 : (∑ _i in Finset.range 160,
        (1 * (91 / 200 + (109 / 200) / 100001) * (1 / 4 + (3 / 4) / 100001) *
          (1 / 4 + (3 / 4) / 100001) * (1 / 4 + (3 / 4) / 100001) *
          (1 / 4 + (3 / 4) / 100001) * (1 / 4 + (3 / 4) / 100001) *
          (1 / 4 + (3 / 4) / 100001) : ℝ)) ≤ 160 * (112 / 1000000) := by
      rw [Finset.sum_const, Finset.card_range, nsmul_eq_mul]
      norm_num
    linarith
  have hw160lb : (999 / 1000 : ℝ) ≤ likelihoodAt cexResponses 0 1000 160 :=
    le_trans cex_W160_val cex_w160_lb
  have hsmall : ∀ j, j ≤ 160 →
      cumOf (posteriorAt cexResponses 0 1000) j < 0.025 := by
    intro j hj
    have hcum_eq : cumOf (posteriorAt cexResponses 0 1000) j =
        (∑ i in Finset.range j, likelihoodAt cexResponses 0 1000 i) /
          likeSum cexResponses 0 1000 := by
      unfold cumOf posteriorAt
      rw [Finset.sum_div]
    rw [hcum_eq, div_lt_iff hS_pos]
    have hsub : (∑ i in Finset.range j, likelihoodAt cexResponses 0 1000 i) ≤
        ∑ i in Finset.range 160, likelihoodAt cexResponses 0 1000 i :=
      Finset.sum_le_sum_of_subset_of_nonneg
        (Finset.range_subset.mpr hj) (fun i _ _ => (hWpos i).le)
    rw [hSsplit]
    nlinarith [hsub, hB_ub, hB_pos, hw160lb]
  have hbig : 0.975 ≤ cumOf (posteriorAt cexResponses 0 1000) 161 := by
    have h1 : cumOf (posteriorAt cexResponses 0 1000) 161 = 1 :=
      posterior_sum_one cexResponses 0 1000 hval
    rw [h1]
    norm_num
  have hlo : (eapEstimate cexResponses 0 1000).ci95Low = 4 := by
    have h1 : (eapEstimate cexResponses 0 1000).ci95Low =
        (ciScan (posteriorAt cexResponses 0 1000)).lo := rfl
    rw [h1, ciScan_last_point _ hsmall hbig, gridPoint_160_val]
  have hth_eq : (eapEstimate cexResponses 0 1000).theta =
      (∑ i in Finset.range 161,
        gridPoint i * likelihoodAt cexResponses 0 1000 i) /
        likeSum cexResponses 0 1000 := by
    show eapThetaOf cexResponses 0 1000 = _
    unfold eapThetaOf posteriorAt
    rw [Finset.sum_div]
    exact Finset.sum_congr rfl (fun i _ => (mul_div_assoc _ _ _).symm)
  have hdrag : (636 : ℝ) * (111 / 1000000) ≤
      ∑ i in Finset.range 160,
        (79 / 20 - gridPoint i) * likelihoodAt cexResponses 0 1000 i := by
    have h0 : (636 : ℝ) * (111 / 1000000) =
        ∑ i in Finset.range 160, (79 / 20 - gridPoint i) * (111 / 1000000) := by
      rw [← Finset.sum_mul, cex_drag_sum]
    rw [h0]
    refine Finset.sum_le_sum ?_
    intro i hi
    have hi159 : i ≤ 159 := by
      have := Finset.mem_range.mp hi
      omega
    have hnonneg : (0 : ℝ) ≤ 79 / 20 - gridPoint i := by
      have h1 := gridPoint_mono hi159
      rw [gridPoint_159] at h1
      linarith
    have hwlb : (111 / 1000000 : ℝ) ≤ likelihoodAt cexResponses 0 1000 i :=
      le_trans cex_Wmin_val (cex_w_lb i (by omega))
    exact mul_le_mul_of_nonneg_left hwlb hnonneg
  have hdrag_eq : ∑ i in Finset.range 160,
      (79 / 20 - gridPoint i) * likelihoodAt cexResponses 0 1000 i =
      (79 / 20) * (∑ i in Finset.range 160, likelihoodAt cexResponses 0 1000 i) -
        ∑ i in Finset.range 160, gridPoint i * likelihoodAt cexResponses 0 1000 i := by
    rw [Finset.mul_sum, ← Finset.sum_sub_distrib]
    exact Finset.sum_congr rfl (fun i _ => by ring)
  have hsum_t : ∑ i in Finset.range 161,
      gridPoint i * likelihoodAt cexResponses 0 1000 i =
      (∑ i in Finset.range 160, gridPoint i * likelihoodAt cexResponses 0 1000 i) +
        4 * likelihoodAt cexResponses 0 1000 160 := by
    rw [Finset.sum_range_succ, gridPoint_160_val]
  have hw160ub := cex_w160_ub
  have htheta : (eapEstimate cexResponses 0 1000).theta < 79 / 20 := by
    rw [hth_eq, div_lt_iff hS_pos]
    rw [hSsplit, hsum_t]
    nlinarith [hdrag, hdrag_eq, hw160ub, hw160lb]
  refine ⟨hlo, htheta, ?_⟩
  intro hcon
  rw [hlo] at hcon
  have : (79 / 20 : ℝ) ≤ (eapEstimate cexResponses 0 1000).theta := by
    norm_num at hcon ⊢
    linarith
  linarith
